import Mathlib

/-!
# postgres-jsonb-perf: record generator, seeder and benchmark scenarios

A shallow embedding of `main.go` and `main_test.go`.

* Go's `int` is a two's-complement machine integer of `bits` bits (32 or 64);
  it is embedded as `Int` with explicit wrap-around (`wrapInt`).
* `time.Now()` is an input: the instant that the call reads.
* A pointer field (`*time.Time`, `*int`) is an `Option`; `nil` is `none`.
* The database behind the connection is a state that the statements of the
  program act on; a statement may also fail in transit.
-/

namespace JsonbPerf

/-! ## Machine integers and formatting -/

/-- Two's-complement wrap-around of an integer to `bits` bits. -/
def wrapInt (bits : Nat) (x : Int) : Int :=
  (x + 2 ^ (bits - 1)) % 2 ^ bits - 2 ^ (bits - 1)

/-- Largest value of a signed `bits`-bit integer. -/
def maxInt (bits : Nat) : Int := 2 ^ (bits - 1) - 1

/-- Smallest value of a signed `bits`-bit integer. -/
def minInt (bits : Nat) : Int := -(2 ^ (bits - 1))

/-- The verb `%d` of `fmt.Sprintf` on an integer: an optional minus sign and the
decimal digits. -/
def fmtD (i : Int) : String :=
  if i < 0 then "-" ++ Nat.repr i.natAbs else Nat.repr i.toNat

/-! ## Data model -/

/-- An instant, as read from the clock (nanoseconds since the epoch). -/
structure Time where
  nanos : Int
  deriving DecidableEq, Repr

/-- Model represents an example table of data (`type Model struct`). -/
structure Model where
  ID : Int
  Name : String
  Status : String
  LastUpdatedAt : Option Time
  LastModifiedAt : Option Time
  Num : Option Int
  Num2 : Option Int
  UpdatedAt : Option Time
  CreatedAt : Option Time
  JumbledAt : Option Time
  SecretCode : String
  Entries : Int
  deriving DecidableEq, Repr

/-- The zero value `Model{}`. -/
def Model.zero : Model :=
  { ID := 0, Name := "", Status := "", LastUpdatedAt := none, LastModifiedAt := none,
    Num := none, Num2 := none, UpdatedAt := none, CreatedAt := none, JumbledAt := none,
    SecretCode := "", Entries := 0 }

/-- The function `createModel(i)`; `now` is the value that `time.Now()` returns
at the call, `bits` the width of `int`. -/
def createModel (bits : Nat) (now : Time) (i : Int) : Model :=
  let ii := wrapInt bits (i + 7)
  { ID := i,
    Name := "MyName:" ++ fmtD i,
    Status := "MyStatus:" ++ fmtD i,
    LastUpdatedAt := some now,
    LastModifiedAt := some now,
    Num := some ii,
    Num2 := some ii,
    UpdatedAt := some now,
    CreatedAt := some now,
    JumbledAt := some now,
    SecretCode := "MyCode:" ++ fmtD i,
    Entries := wrapInt bits (i + 10) }

/-! ## JSON documents

`json.Marshal` of a `Model` gives a flat object. A JSON string that holds the
RFC 3339 text of an instant is kept as that instant (`JVal.ts`); its characters
are not modelled. -/

/-- A scalar JSON value. -/
inductive JVal where
  | null
  | num (n : Int)
  | str (s : String)
  | ts (t : Time)
  deriving DecidableEq, Repr

/-- A `jsonb` value: a scalar or a flat object (keys in document order). -/
inductive Json where
  | scalar (v : JVal)
  | obj (kvs : List (String × JVal))
  deriving DecidableEq, Repr

/-- Encoding of a `*time.Time` field. -/
def jsonOfTime : Option Time → JVal
  | none => .null
  | some t => .ts t

/-- Encoding of a `*int` field. -/
def jsonOfInt : Option Int → JVal
  | none => .null
  | some n => .num n

/-- The document `json.Marshal(m)`: one member per field, named by its `json` tag. -/
def marshal (m : Model) : Json :=
  .obj [("id", .num m.ID), ("name", .str m.Name), ("status", .str m.Status),
        ("last_updated_at", jsonOfTime m.LastUpdatedAt),
        ("last_modified_at", jsonOfTime m.LastModifiedAt),
        ("num", jsonOfInt m.Num), ("num2", jsonOfInt m.Num2),
        ("updated_at", jsonOfTime m.UpdatedAt), ("created_at", jsonOfTime m.CreatedAt),
        ("jumbled_at", jsonOfTime m.JumbledAt),
        ("secret_code", .str m.SecretCode), ("entries", .num m.Entries)]

/-- Member lookup in an association list (first occurrence). -/
def kvGet (key : String) : List (String × JVal) → Option JVal
  | [] => none
  | (k, v) :: rest => if k = key then some v else kvGet key rest

/-- Member replacement, or addition at the end when the key is missing. -/
def kvSet (key : String) (v : JVal) : List (String × JVal) → List (String × JVal)
  | [] => [(key, v)]
  | (k, w) :: rest => if k = key then (k, v) :: rest else (k, w) :: kvSet key v rest

/-- Member of a document; a scalar has none. -/
def Json.get (key : String) : Json → Option JVal
  | .scalar _ => none
  | .obj kvs => kvGet key kvs

/-- Whether `n` fits Go's `int` of `bits` bits. -/
def fitsInt (bits : Nat) (n : Int) : Bool :=
  decide (minInt bits ≤ n) && decide (n ≤ maxInt bits)

/-- Decoding of one member into an `int` field (`null` leaves the field as is). -/
def decInt (bits : Nat) (cur : Int) : JVal → Except String Int
  | .null => .ok cur
  | .num n => if fitsInt bits n then .ok n else .error "json: number overflows int"
  | _ => .error "json: cannot unmarshal into int"

/-- Decoding of one member into a `string` field. -/
def decStr (cur : String) : JVal → Except String String
  | .null => .ok cur
  | .str s => .ok s
  | .ts _ => .error "unmodelled: characters of a timestamp text"
  | .num _ => .error "json: cannot unmarshal number into string"

/-- Decoding of one member into a `*time.Time` field. -/
def decTime : JVal → Except String (Option Time)
  | .null => .ok none
  | .ts t => .ok (some t)
  | .str _ => .error "unmodelled: parsing a text as a timestamp"
  | .num _ => .error "json: cannot unmarshal number into time"

/-- Decoding of one member into a `*int` field. -/
def decOptInt (bits : Nat) : JVal → Except String (Option Int)
  | .null => .ok none
  | .num n => if fitsInt bits n then .ok (some n) else .error "json: number overflows int"
  | _ => .error "json: cannot unmarshal into int"

/-- One member of a document stored into the field with that tag; a member with
no matching field is skipped. -/
def setMember (bits : Nat) (m : Model) (key : String) (v : JVal) : Except String Model :=
  if key = "id" then (decInt bits m.ID v).map (fun x => { m with ID := x })
  else if key = "name" then (decStr m.Name v).map (fun x => { m with Name := x })
  else if key = "status" then (decStr m.Status v).map (fun x => { m with Status := x })
  else if key = "last_updated_at" then (decTime v).map (fun x => { m with LastUpdatedAt := x })
  else if key = "last_modified_at" then (decTime v).map (fun x => { m with LastModifiedAt := x })
  else if key = "num" then (decOptInt bits v).map (fun x => { m with Num := x })
  else if key = "num2" then (decOptInt bits v).map (fun x => { m with Num2 := x })
  else if key = "updated_at" then (decTime v).map (fun x => { m with UpdatedAt := x })
  else if key = "created_at" then (decTime v).map (fun x => { m with CreatedAt := x })
  else if key = "jumbled_at" then (decTime v).map (fun x => { m with JumbledAt := x })
  else if key = "secret_code" then (decStr m.SecretCode v).map (fun x => { m with SecretCode := x })
  else if key = "entries" then (decInt bits m.Entries v).map (fun x => { m with Entries := x })
  else .ok m

/-- The members of an object decoded in document order. -/
def setMembers (bits : Nat) : List (String × JVal) → Model → Except String Model
  | [], m => .ok m
  | (k, v) :: rest, m =>
    match setMember bits m k v with
    | .error e => .error e
    | .ok m1 => setMembers bits rest m1

/-- The call `json.Unmarshal(doc, m)`: `null` is a no-op, another scalar an error. -/
def unmarshal (bits : Nat) (doc : Json) (m : Model) : Except String Model :=
  match doc with
  | .scalar .null => .ok m
  | .scalar _ => .error "json: cannot unmarshal scalar into Model"
  | .obj kvs => setMembers bits kvs m
/-! ## The tables and the SQL of the program

The schema is the `CREATE TABLE` text of `main.go` and `resetInsertTable`: thirteen
nullable columns. A table is the list of its rows in scan order.

The database server and the driver are outside the repository. The definitions of
this section give the SQL texts of the program as terms and describe what
PostgreSQL and pgx do with them: typed storage per column, `->>` and the casts,
the strict `jsonb_set`, NULL for a `nil` pointer. Where the characters of a text
would matter (digits of a number, RFC 3339 form of an instant) the value is
kept instead of its characters. -/

/-- The columns of `perf` and `perf2`. -/
inductive Col where
  | j | id | name | status | last_updated_at | last_modified_at | num | num2
  | updated_at | created_at | jumbled_at | secret_code | entries
  deriving DecidableEq, Repr

/-- The two tables: the seeded one and the throwaway one. -/
inductive Table where
  | perf
  | perf2
  deriving DecidableEq, Repr

/-- An SQL value. `numText n` is the text of the integer `n` and `tsText t` the
text of the instant `t`, as `->>` gives them for a number and for a timestamp
member (digits and timestamp characters are not modelled). -/
inductive SqlVal where
  | null
  | int (n : Int)
  | text (s : String)
  | numText (n : Int)
  | tsText (t : Time)
  | ts (t : Time)
  | jsonb (doc : Json)
  deriving DecidableEq, Repr

/-- One row: a value or NULL (`none`) in every column. -/
structure Row where
  j : Option Json
  id : Option Int
  name : Option String
  status : Option String
  last_updated_at : Option Time
  last_modified_at : Option Time
  num : Option Int
  num2 : Option Int
  updated_at : Option Time
  created_at : Option Time
  jumbled_at : Option Time
  secret_code : Option String
  entries : Option Int
  deriving DecidableEq, Repr

/-- The row with NULL in every column. -/
def Row.null : Row :=
  { j := none, id := none, name := none, status := none, last_updated_at := none,
    last_modified_at := none, num := none, num2 := none, updated_at := none,
    created_at := none, jumbled_at := none, secret_code := none, entries := none }

/-- A `timestamp without time zone` keeps microseconds: the binary encoding of a
`time.Time` parameter drops the nanoseconds below. -/
def Time.truncMicros (t : Time) : Time := ⟨t.nanos / 1000 * 1000⟩

/-- The cast of a timestamp text to `timestamp` rounds to the nearest microsecond. -/
def Time.roundMicros (t : Time) : Time := ⟨(t.nanos + 500) / 1000 * 1000⟩

/-- Whether `n` fits the SQL type `integer` (32 bits). -/
def fitsInt4 (n : Int) : Bool := decide (-2147483648 ≤ n) && decide (n ≤ 2147483647)

/-- A value stored into a `jsonb` column. -/
def asJsonb : SqlVal → Except String (Option Json)
  | .null => .ok none
  | .jsonb d => .ok (some d)
  | .int n => .ok (some (.scalar (.num n)))
  | _ => .error "unmodelled: parsing a text as jsonb"

/-- A value stored into an `integer` column. -/
def asInt4 : SqlVal → Except String (Option Int)
  | .null => .ok none
  | .int n => if fitsInt4 n then .ok (some n) else .error "integer out of range"
  | _ => .error "column is of type integer"

/-- A value stored into a `character varying` column. -/
def asVarchar : SqlVal → Except String (Option String)
  | .null => .ok none
  | .text s => .ok (some s)
  | .numText n => .ok (some (fmtD n))
  | .tsText _ => .error "unmodelled: characters of a timestamp text"
  | _ => .error "column is of type character varying"

/-- A value stored into a `timestamp without time zone` column. -/
def asTimestamp : SqlVal → Except String (Option Time)
  | .null => .ok none
  | .ts t => .ok (some t.truncMicros)
  | _ => .error "column is of type timestamp"

/-- The value of a column of a row. -/
def Row.get (r : Row) : Col → SqlVal
  | .j => match r.j with | none => .null | some d => .jsonb d
  | .id => match r.id with | none => .null | some n => .int n
  | .name => match r.name with | none => .null | some s => .text s
  | .status => match r.status with | none => .null | some s => .text s
  | .last_updated_at => match r.last_updated_at with | none => .null | some t => .ts t
  | .last_modified_at => match r.last_modified_at with | none => .null | some t => .ts t
  | .num => match r.num with | none => .null | some n => .int n
  | .num2 => match r.num2 with | none => .null | some n => .int n
  | .updated_at => match r.updated_at with | none => .null | some t => .ts t
  | .created_at => match r.created_at with | none => .null | some t => .ts t
  | .jumbled_at => match r.jumbled_at with | none => .null | some t => .ts t
  | .secret_code => match r.secret_code with | none => .null | some s => .text s
  | .entries => match r.entries with | none => .null | some n => .int n

/-- Assignment of a value to a column, converted to the column's type. -/
def Row.set (r : Row) (c : Col) (v : SqlVal) : Except String Row :=
  match c with
  | .j => (asJsonb v).map (fun x => { r with j := x })
  | .id => (asInt4 v).map (fun x => { r with id := x })
  | .name => (asVarchar v).map (fun x => { r with name := x })
  | .status => (asVarchar v).map (fun x => { r with status := x })
  | .last_updated_at => (asTimestamp v).map (fun x => { r with last_updated_at := x })
  | .last_modified_at => (asTimestamp v).map (fun x => { r with last_modified_at := x })
  | .num => (asInt4 v).map (fun x => { r with num := x })
  | .num2 => (asInt4 v).map (fun x => { r with num2 := x })
  | .updated_at => (asTimestamp v).map (fun x => { r with updated_at := x })
  | .created_at => (asTimestamp v).map (fun x => { r with created_at := x })
  | .jumbled_at => (asTimestamp v).map (fun x => { r with jumbled_at := x })
  | .secret_code => (asVarchar v).map (fun x => { r with secret_code := x })
  | .entries => (asInt4 v).map (fun x => { r with entries := x })

/-- A Go value passed as a statement argument. -/
inductive Arg where
  | int (n : Int)
  | str (s : String)
  | optInt (p : Option Int)
  | optTime (p : Option Time)
  | model (m : Model)
  deriving DecidableEq, Repr

/-- The SQL value that the driver sends for an argument: a `nil` pointer is NULL,
a `*Model` is its JSON document. -/
def Arg.toSql : Arg → SqlVal
  | .int n => .int n
  | .str s => .text s
  | .optInt none => .null
  | .optInt (some n) => .int n
  | .optTime none => .null
  | .optTime (some t) => .ts t
  | .model m => .jsonb (marshal m)

/-- The expressions that occur in the SQL texts of the program. -/
inductive Expr where
  /-- The placeholder `$k` (counted from 1). -/
  | param (k : Nat)
  /-- A column name. -/
  | col (c : Col)
  /-- The operator `e ->> 'key'`. -/
  | arrowText (e : Expr) (key : String)
  /-- The cast `(e)::int`. -/
  | castInt (e : Expr)
  /-- The cast `(e)::text`. -/
  | castText (e : Expr)
  /-- The cast `(e)::timestamp`. -/
  | castTs (e : Expr)
  /-- The call `to_jsonb(e)`. -/
  | toJsonb (e : Expr)
  /-- The call `jsonb_set(target, '{key}', v)`. -/
  | jsonbSet (target : Expr) (key : String) (v : Expr)
  deriving DecidableEq, Repr

/-- The text that `->>` gives for a member. -/
def memberText : Option JVal → SqlVal
  | none => .null
  | some .null => .null
  | some (.num n) => .numText n
  | some (.str s) => .text s
  | some (.ts t) => .tsText t

/-- A value used as a scalar `jsonb` (the new value of `jsonb_set`). -/
def asJsonScalar : SqlVal → Except String JVal
  | .int n => .ok (.num n)
  | .jsonb (.scalar v) => .ok v
  | .jsonb (.obj _) => .error "unmodelled: nested document"
  | _ => .error "unmodelled: parsing a text as jsonb"

/-- Evaluation of an expression on a row, with the statement's arguments. -/
def eval (args : List Arg) (r : Row) : Expr → Except String SqlVal
  | .param k =>
    if k = 0 then .error "there is no parameter $0"
    else
      match args.get? (k - 1) with
      | some a => .ok a.toSql
      | none => .error "there is no such parameter"
  | .col c => .ok (r.get c)
  | .arrowText e key =>
    match eval args r e with
    | .error err => .error err
    | .ok .null => .ok .null
    | .ok (.jsonb d) => .ok (memberText (d.get key))
    | .ok _ => .error "operator does not exist: ->>"
  | .castInt e =>
    match eval args r e with
    | .error err => .error err
    | .ok .null => .ok .null
    | .ok (.int n) => .ok (.int n)
    | .ok (.numText n) => if fitsInt4 n then .ok (.int n) else .error "integer out of range"
    | .ok (.text s) =>
      match s.toInt? with
      | some n => if fitsInt4 n then .ok (.int n) else .error "integer out of range"
      | none => .error "invalid input for type integer"
    | .ok _ => .error "cannot cast to integer"
  | .castText e =>
    match eval args r e with
    | .error err => .error err
    | .ok .null => .ok .null
    | .ok (.text s) => .ok (.text s)
    | .ok (.numText n) => .ok (.numText n)
    | .ok (.tsText t) => .ok (.tsText t)
    | .ok (.int n) => .ok (.numText n)
    | .ok _ => .error "unmodelled: text of a timestamp or of a document"
  | .castTs e =>
    match eval args r e with
    | .error err => .error err
    | .ok .null => .ok .null
    | .ok (.ts t) => .ok (.ts t)
    | .ok (.tsText t) => .ok (.ts t.roundMicros)
    | .ok (.text _) => .error "unmodelled: parsing a text as a timestamp"
    | .ok _ => .error "cannot cast to timestamp"
  | .toJsonb e =>
    match eval args r e with
    | .error err => .error err
    | .ok .null => .ok .null
    | .ok (.text s) => .ok (.jsonb (.scalar (.str s)))
    | .ok (.numText n) => .ok (.jsonb (.scalar (.str (fmtD n))))
    | .ok (.int n) => .ok (.jsonb (.scalar (.num n)))
    | .ok (.jsonb d) => .ok (.jsonb d)
    | .ok _ => .error "unmodelled: characters of a timestamp text"
  | .jsonbSet target key v =>
    match eval args r target with
    | .error err => .error err
    | .ok .null => .ok .null
    | .ok (.jsonb (.obj kvs)) =>
      match eval args r v with
      | .error err => .error err
      | .ok .null => .ok .null
      | .ok w =>
        match asJsonScalar w with
        | .error err => .error err
        | .ok x => .ok (.jsonb (.obj (kvSet key x kvs)))
    | .ok (.jsonb (.scalar _)) => .error "cannot set path in scalar"
    | .ok _ => .error "function jsonb_set does not exist"

/-- The statements of the program. -/
inductive Stmt where
  /-- The text of `resetInsertTable`: `DROP TABLE IF EXISTS perf2; CREATE TABLE perf2 (...)`. -/
  | resetPerf2
  /-- The statement `insert into t (cols) values ($1, ..., $n)`. -/
  | insert (t : Table) (cols : List Col) (args : List Arg)
  /-- The statement `update t set c = e, ... where id = w`. -/
  | update (t : Table) (sets : List (Col × Expr)) (w : Expr) (args : List Arg)
  /-- The query `select e, ... from t`. -/
  | select (exprs : List Expr) (t : Table)
  deriving DecidableEq, Repr

/-- The table that a statement names. -/
def Stmt.target : Stmt → Table
  | .resetPerf2 => .perf2
  | .insert t _ _ => t
  | .update t _ _ _ => t
  | .select _ t => t

/-- The database: each table exists (`some`) or not. -/
structure DB where
  perf : Option (List Row)
  perf2 : Option (List Row)
  deriving DecidableEq, Repr

/-- The rows of a table, when it exists. -/
def DB.table (db : DB) : Table → Option (List Row)
  | .perf => db.perf
  | .perf2 => db.perf2

/-- Replacement of the rows of a table. -/
def DB.setTable (db : DB) (t : Table) (rows : List Row) : DB :=
  match t with
  | .perf => { db with perf := some rows }
  | .perf2 => { db with perf2 := some rows }

/-- The row that an insert builds: the listed columns from the arguments in
order, every other column NULL. -/
def buildRow : List Col → List Arg → Row → Except String Row
  | [], [], r => .ok r
  | c :: cs, a :: as, r =>
    match r.set c a.toSql with
    | .error e => .error e
    | .ok r1 => buildRow cs as r1
  | _, _, _ => .error "INSERT has more target columns than expressions"

/-- The assignments of an update, each evaluated on the old row. -/
def applySets (args : List Arg) (old : Row) : List (Col × Expr) → Row → Except String Row
  | [], r => .ok r
  | (c, e) :: rest, r =>
    match eval args old e with
    | .error err => .error err
    | .ok v =>
      match r.set c v with
      | .error err => .error err
      | .ok r1 => applySets args old rest r1

/-- Whether a row satisfies `where id = key`. -/
def matchesId (key : SqlVal) (r : Row) : Bool :=
  match key, r.id with
  | .int k, some n => decide (n = k)
  | _, _ => false

/-- The rows of a table after an update. -/
def updateRows (args : List Arg) (sets : List (Col × Expr)) (key : SqlVal) :
    List Row → Except String (List Row)
  | [] => .ok []
  | r :: rs =>
    match (if matchesId key r then applySets args r sets r else .ok r) with
    | .error err => .error err
    | .ok r1 =>
      match updateRows args sets key rs with
      | .error err => .error err
      | .ok rs1 => .ok (r1 :: rs1)

/-- The effect of a statement passed to `conn.Exec` on the database. -/
def pgExec (db : DB) : Stmt → Except String DB
  | .resetPerf2 => .ok { db with perf2 := some [] }
  | .insert t cols args =>
    match db.table t with
    | none => .error "relation does not exist"
    | some rows =>
      match buildRow cols args Row.null with
      | .error e => .error e
      | .ok r => .ok (db.setTable t (rows ++ [r]))
  | .update t sets w args =>
    match db.table t with
    | none => .error "relation does not exist"
    | some rows =>
      match eval args Row.null w with
      | .error e => .error e
      | .ok key =>
        match asInt4 key with
        | .error e => .error e
        | .ok _ =>
          match updateRows args sets key rows with
          | .error e => .error e
          | .ok rows1 => .ok (db.setTable t rows1)
  | .select _ t =>
    match db.table t with
    | none => .error "relation does not exist"
    | some _ => .ok db

/-- A result row: one value per selected expression. -/
abbrev RawRow := List SqlVal

/-- A result cursor (`v4.Rows`): the rows that `Next` delivers, in order, and the
error that `Err` reports once `Next` has returned false. -/
structure Rows where
  pending : List RawRow
  finalErr : Option String
  deriving DecidableEq, Repr

/-- The values of the selected expressions on one row. -/
def evalAll (r : Row) : List Expr → Except String RawRow
  | [] => .ok []
  | e :: es =>
    match eval [] r e with
    | .error err => .error err
    | .ok v =>
      match evalAll r es with
      | .error err => .error err
      | .ok vs => .ok (v :: vs)

/-- The cursor of a select over the rows of a table: a row whose expressions
cannot be evaluated ends the result with that error. -/
def selectRows (exprs : List Expr) : List Row → Rows
  | [] => { pending := [], finalErr := none }
  | r :: rs =>
    match evalAll r exprs with
    | .error err => { pending := [], finalErr := some err }
    | .ok vs =>
      let rest := selectRows exprs rs
      { pending := vs :: rest.pending, finalErr := rest.finalErr }

/-- The result of a statement passed to `conn.Query`. -/
def pgQuery (db : DB) : Stmt → Except String Rows
  | .select exprs t =>
    match db.table t with
    | none => .error "relation does not exist"
    | some rows => .ok (selectRows exprs rows)
  | _ => .error "unmodelled: Query with a statement that returns no rows"
/-! ## The process and its connection -/

/-- The state of a run: the database behind the connection, what the environment
decides (whether connecting fails, which statements fail in transit, what the
clock shows at each reading), and what the process has done so far. -/
structure Proc where
  /-- The tables. -/
  db : DB
  /-- The error of connecting, if connecting fails. -/
  connErr : Option String
  /-- Whether the statement sent as number `k` (from 0) fails before it takes effect. -/
  faults : Nat → Bool
  /-- The instant shown by the clock at its reading number `k` (from 0). -/
  clock : Nat → Time
  /-- The number of clock readings so far. -/
  reads : Nat
  /-- The statements sent so far, oldest first. -/
  sent : List Stmt
  /-- The pieces written to standard output, oldest first. -/
  stdout : List String
  /-- The pieces written to standard error, oldest first. -/
  stderr : List String

/-- A terminated process: its exit status and its last state. -/
structure Halt where
  code : Int
  proc : Proc

/-- The call `time.Now()`. -/
def Proc.timeNow (p : Proc) : Time × Proc :=
  (p.clock p.reads, { p with reads := p.reads + 1 })

/-- A write to standard output. -/
def Proc.print (p : Proc) (s : String) : Proc :=
  { p with stdout := p.stdout ++ [s] }

/-- The call `log.Fatal(err)`: the error goes to standard error and the process
exits with status 1. -/
def logFatal (p : Proc) (err : String) : Halt :=
  { code := 1, proc := { p with stderr := p.stderr ++ [err] } }

/-- The call `conn.Exec(ctx, sql, args...)`: the error, if any, and the state after. -/
def Proc.Exec (p : Proc) (s : Stmt) : Option String × Proc :=
  let p1 := { p with sent := p.sent ++ [s] }
  if p.faults p.sent.length then (some "connection failure", p1)
  else
    match pgExec p.db s with
    | .error e => (some e, p1)
    | .ok db1 => (none, { p1 with db := db1 })

/-- The call `conn.Query(ctx, sql)`: the cursor or the error, and the state after. -/
def Proc.Query (p : Proc) (s : Stmt) : Except String Rows × Proc :=
  let p1 := { p with sent := p.sent ++ [s] }
  if p.faults p.sent.length then (.error "connection failure", p1)
  else (pgQuery p.db s, p1)

/-- The loop `for i := i0; ...; i++ { body }` run for `k` more iterations; a
terminated process ends it. -/
def forRange (body : Nat → Proc → Except Halt Proc) : Nat → Nat → Proc → Except Halt Proc
  | 0, _, p => .ok p
  | k + 1, i, p =>
    match body i p with
    | .error h => .error h
    | .ok p1 => forRange body k (i + 1) p1

/-- The last state of a run, terminated or not. -/
def final : Except Halt Proc → Proc
  | .ok p => p
  | .error h => h.proc

/-! ## main.go: the seeder -/

/-- The insert of `main`:
`insert into perf (j, id, name, status, last_updated_at, last_modified_at, num, num2,
updated_at, created_at, jumbled_at, secret_code, entries) values ($1,...,$13)`
with the arguments `pf, pf.ID, pf.Name, ...`. -/
def seedStmt (pf : Model) : Stmt :=
  .insert .perf
    [.j, .id, .name, .status, .last_updated_at, .last_modified_at, .num, .num2,
     .updated_at, .created_at, .jumbled_at, .secret_code, .entries]
    [.model pf, .int pf.ID, .str pf.Name, .str pf.Status, .optTime pf.LastUpdatedAt,
     .optTime pf.LastModifiedAt, .optInt pf.Num, .optInt pf.Num2, .optTime pf.UpdatedAt,
     .optTime pf.CreatedAt, .optTime pf.JumbledAt, .str pf.SecretCode, .int pf.Entries]

/-- The body of the loop of `main`; both results of `conn.Exec` are dropped. -/
def seedBody (bits : Nat) (i : Nat) (p : Proc) : Except Halt Proc :=
  let p1 := if i % 100000 = 0 then p.print (fmtD i ++ "\n") else p
  let (now, p2) := p1.timeNow
  let pf := createModel bits now i
  .ok (p2.Exec (seedStmt pf)).2

/-- The seeder with its population size as a parameter. -/
def seed (bits : Nat) (count : Nat) (p : Proc) : Except Halt Proc :=
  match p.connErr with
  | some e =>
    .error { code := 1,
             proc := { p with stderr := p.stderr ++
                         ["Unable to connection to database: " ++ e ++ "\n"] } }
  | none => forRange (seedBody bits) count 0 p

/-- The function `main`: seed the database with 2 million entries. -/
def main (bits : Nat) (p : Proc) : Except Halt Proc := seed bits 2000000 p

/-- The exit status of a run: 0 when `main` returns. -/
def exitCode : Except Halt Proc → Int
  | .ok _ => 0
  | .error h => h.code

/-! ## main_test.go: the row decoder -/

/-- A scan destination: the whole `*Model` or the address of one of its fields. -/
inductive Dest where
  | whole | ID | Name | Status | LastUpdatedAt | LastModifiedAt | Num | Num2
  | UpdatedAt | CreatedAt | JumbledAt | SecretCode | Entries
  deriving DecidableEq, Repr

/-- The type `fieldsFunc`: the destinations chosen for a model. -/
abbrev fieldsFunc := Model → List Dest

/-- A value scanned into an `*int`: NULL cannot be assigned. -/
def scanInt (bits : Nat) : SqlVal → Except String Int
  | .int n => if fitsInt bits n then .ok n else .error "value out of range for int"
  | .null => .error "cannot assign NULL to *int"
  | _ => .error "cannot assign to *int"

/-- A value scanned into a `*string`: NULL cannot be assigned. -/
def scanStr : SqlVal → Except String String
  | .text s => .ok s
  | .numText n => .ok (fmtD n)
  | .tsText _ => .error "unmodelled: characters of a timestamp text"
  | .null => .error "cannot assign NULL to *string"
  | _ => .error "cannot assign to *string"

/-- A value scanned into a `**time.Time`: NULL gives `nil`. -/
def scanOptTime : SqlVal → Except String (Option Time)
  | .ts t => .ok (some t)
  | .null => .ok none
  | _ => .error "cannot assign to **time.Time"

/-- A value scanned into a `**int`: NULL gives `nil`. -/
def scanOptInt (bits : Nat) : SqlVal → Except String (Option Int)
  | .int n => if fitsInt bits n then .ok (some n) else .error "value out of range for int"
  | .null => .ok none
  | _ => .error "cannot assign to **int"

/-- One value scanned into one destination. -/
def assign (bits : Nat) (m : Model) (d : Dest) (v : SqlVal) : Except String Model :=
  match d with
  | .whole =>
    match v with
    | .jsonb doc => unmarshal bits doc m
    | .null => .ok m
    | _ => .error "cannot assign to *Model"
  | .ID => (scanInt bits v).map (fun x => { m with ID := x })
  | .Name => (scanStr v).map (fun x => { m with Name := x })
  | .Status => (scanStr v).map (fun x => { m with Status := x })
  | .LastUpdatedAt => (scanOptTime v).map (fun x => { m with LastUpdatedAt := x })
  | .LastModifiedAt => (scanOptTime v).map (fun x => { m with LastModifiedAt := x })
  | .Num => (scanOptInt bits v).map (fun x => { m with Num := x })
  | .Num2 => (scanOptInt bits v).map (fun x => { m with Num2 := x })
  | .UpdatedAt => (scanOptTime v).map (fun x => { m with UpdatedAt := x })
  | .CreatedAt => (scanOptTime v).map (fun x => { m with CreatedAt := x })
  | .JumbledAt => (scanOptTime v).map (fun x => { m with JumbledAt := x })
  | .SecretCode => (scanStr v).map (fun x => { m with SecretCode := x })
  | .Entries => (scanInt bits v).map (fun x => { m with Entries := x })

/-- The call `rows.Scan(dests...)` on the current row: one destination per column, in order. -/
def Scan (bits : Nat) : RawRow → List Dest → Model → Except String Model
  | [], [], m => .ok m
  | v :: vs, d :: ds, m =>
    match assign bits m d v with
    | .error e => .error e
    | .ok m1 => Scan bits vs ds m1
  | _, _, _ => .error "number of field descriptions must equal number of destinations"

/-- The function `query`: a failed `conn.Query` is fatal. -/
def query (p : Proc) (sql : Stmt) : Except Halt (Rows × Proc) :=
  match p.Query sql with
  | (.error err, p1) => .error (logFatal p1 err)
  | (.ok rows, p1) => .ok (rows, p1)

/-- The loop `for rows.Next() { ... }` of `runTest` over the rows still to come,
with the models retained so far. -/
def runTestLoop (bits : Nat) (getModelFields : fieldsFunc) :
    List RawRow → List Model → Proc → Except Halt (List Model × Proc)
  | [], models, p => .ok (models, p)
  | row :: rest, models, p =>
    let model := Model.zero
    let modelFields := getModelFields model
    match Scan bits row modelFields model with
    | .error err => .error (logFatal p err)
    | .ok model1 =>
      let models1 := models ++ [model1]
      let p1 := if model1.ID % 100000 = 0 then p.print "." else p
      runTestLoop bits getModelFields rest models1 p1

/-- The function `runTest`; the result is the slice `models` that it keeps alive. -/
def runTest (bits : Nat) (p : Proc) (rows : Rows) (getModelFields : fieldsFunc) :
    Except Halt (List Model × Proc) :=
  match runTestLoop bits getModelFields rows.pending [] p with
  | .error h => .error h
  | .ok (models, p1) =>
    match rows.finalErr with
    | some err => .error (logFatal p1 err)
    | none => .ok (models, p1)
/-! ## main_test.go: the benchmark scenarios

`b.N` is the parameter `count`; timers are not modelled. An index `n < b.N` is
below the largest `int`, so `n + 1` does not wrap. -/

/-- The function `getConn`: a failure to connect is fatal. -/
def getConn (p : Proc) : Except Halt Proc :=
  match p.connErr with
  | some err => .error (logFatal p err)
  | none => .ok p

/-- The function `resetInsertTable`; both results of `conn.Exec` are dropped. -/
def resetInsertTable (p : Proc) : Proc := (p.Exec .resetPerf2).2

/-- A statement passed to `conn.Exec` whose error is fatal. -/
def execOrFatal (p : Proc) (s : Stmt) : Except Halt Proc :=
  match p.Exec s with
  | (some err, p1) => .error (logFatal p1 err)
  | (none, p1) => .ok p1

/-- The insert of `BenchmarkInsertJson`: `insert into perf2 (j) values ($1)`. -/
def insertJsonStmt (model : Model) : Stmt :=
  .insert .perf2 [.j] [.model model]

/-- The insert of `BenchmarkInsertNormalColumns`: the twelve typed columns of `perf2`. -/
def insertNormalStmt (model : Model) : Stmt :=
  .insert .perf2
    [.id, .name, .status, .last_updated_at, .last_modified_at, .num, .num2,
     .updated_at, .created_at, .jumbled_at, .secret_code, .entries]
    [.int model.ID, .str model.Name, .str model.Status, .optTime model.LastUpdatedAt,
     .optTime model.LastModifiedAt, .optInt model.Num, .optInt model.Num2,
     .optTime model.UpdatedAt, .optTime model.CreatedAt, .optTime model.JumbledAt,
     .str model.SecretCode, .int model.Entries]

/-- The update of `BenchmarkUpdate2JsonbFields`:
`update perf set j = jsonb_set(jsonb_set(j, '{name}', to_jsonb($1::text)), '{num}', $3)
where id = $2` with the arguments `fmt.Sprintf("UpdateName:%d", n), n+1, n`. -/
def updateJsonbStmt (n : Nat) : Stmt :=
  .update .perf
    [(.j, .jsonbSet (.jsonbSet (.col .j) "name" (.toJsonb (.castText (.param 1))))
            "num" (.param 3))]
    (.param 2)
    [.str ("UpdateName:" ++ fmtD n), .int (n + 1), .int n]

/-- The update of `BenchmarkUpdate2NormalColumns`:
`update perf set name = $1, num = $3 where id = $2` with the same arguments. -/
def updateNormalStmt (n : Nat) : Stmt :=
  .update .perf [(.name, .param 1), (.num, .param 3)] (.param 2)
    [.str ("UpdateName:" ++ fmtD n), .int (n + 1), .int n]

/-- The benchmark `BenchmarkInsertJson`. -/
def BenchmarkInsertJson (bits : Nat) (count : Nat) (p : Proc) : Except Halt Proc :=
  match getConn p with
  | .error h => .error h
  | .ok p1 =>
    forRange (fun n q =>
      let (now, q1) := q.timeNow
      let model := createModel bits now (n + 1)
      execOrFatal q1 (insertJsonStmt model)) count 0 (resetInsertTable p1)

/-- The benchmark `BenchmarkInsertNormalColumns`. -/
def BenchmarkInsertNormalColumns (bits : Nat) (count : Nat) (p : Proc) : Except Halt Proc :=
  match getConn p with
  | .error h => .error h
  | .ok p1 =>
    forRange (fun n q =>
      let (now, q1) := q.timeNow
      let model := createModel bits now (n + 1)
      execOrFatal q1 (insertNormalStmt model)) count 0 (resetInsertTable p1)

/-- The benchmark `BenchmarkUpdate2JsonbFields`. -/
def BenchmarkUpdate2JsonbFields (count : Nat) (p : Proc) : Except Halt Proc :=
  match getConn p with
  | .error h => .error h
  | .ok p1 => forRange (fun n q => execOrFatal q (updateJsonbStmt n)) count 0 p1

/-- The benchmark `BenchmarkUpdate2NormalColumns`. -/
def BenchmarkUpdate2NormalColumns (count : Nat) (p : Proc) : Except Halt Proc :=
  match getConn p with
  | .error h => .error h
  | .ok p1 => forRange (fun n q => execOrFatal q (updateNormalStmt n)) count 0 p1

/-- One iteration of a read benchmark: `rows := query(ctx, conn, sql)` and then
`runTest(ctx, rows, fields)`. -/
def readIteration (bits : Nat) (sql : Stmt) (fields : fieldsFunc) (q : Proc) :
    Except Halt Proc :=
  match query q sql with
  | .error h => .error h
  | .ok (rows, q1) =>
    match runTest bits q1 rows fields with
    | .error h => .error h
    | .ok (_, q2) => .ok q2

/-- The shape shared by the read benchmarks: each iteration runs the query and
decodes its rows; a newline is printed after the loop. -/
def readBenchmark (bits : Nat) (sql : Stmt) (fields : fieldsFunc) (count : Nat) (p : Proc) :
    Except Halt Proc :=
  match getConn p with
  | .error h => .error h
  | .ok p1 =>
    match forRange (fun _ q => readIteration bits sql fields q) count 0 p1 with
    | .error h => .error h
    | .ok p2 => .ok (p2.print "\n")

/-- The twelve field destinations, in the order of the struct. -/
def allFields : fieldsFunc := fun _ =>
  [.ID, .Name, .Status, .LastUpdatedAt, .LastModifiedAt, .Num, .Num2,
   .UpdatedAt, .CreatedAt, .JumbledAt, .SecretCode, .Entries]

/-- The query `select j from perf`. -/
def selectJsonbSql : Stmt := .select [.col .j] .perf

/-- The query that selects the twelve typed columns of `perf`. -/
def selectNormalSql : Stmt :=
  .select [.col .id, .col .name, .col .status, .col .last_updated_at, .col .last_modified_at,
           .col .num, .col .num2, .col .updated_at, .col .created_at, .col .jumbled_at,
           .col .secret_code, .col .entries] .perf

/-- The query that extracts the twelve fields from `j`, casting each to its type. -/
def selectJsonbColumnsSql : Stmt :=
  .select [.castInt (.arrowText (.col .j) "id"),
           .arrowText (.col .j) "name",
           .arrowText (.col .j) "status",
           .castTs (.castText (.arrowText (.col .j) "last_updated_at")),
           .castTs (.castText (.arrowText (.col .j) "last_modified_at")),
           .castInt (.arrowText (.col .j) "num"),
           .castInt (.arrowText (.col .j) "num2"),
           .castTs (.castText (.arrowText (.col .j) "updated_at")),
           .castTs (.castText (.arrowText (.col .j) "created_at")),
           .castTs (.castText (.arrowText (.col .j) "jumbled_at")),
           .arrowText (.col .j) "secret_code",
           .castInt (.arrowText (.col .j) "entries")] .perf

/-- The query `select (j->>'id')::int from perf`. -/
def selectSingleJsonbSql : Stmt := .select [.castInt (.arrowText (.col .j) "id")] .perf

/-- The query `select id from perf`. -/
def selectSingleNormalSql : Stmt := .select [.col .id] .perf

/-- The benchmark `BenchmarkSelectAndParseJsonb`. -/
def BenchmarkSelectAndParseJsonb (bits : Nat) (count : Nat) (p : Proc) : Except Halt Proc :=
  readBenchmark bits selectJsonbSql (fun _ => [.whole]) count p

/-- The benchmark `BenchmarkSelectAndParseNormalColumns`. -/
def BenchmarkSelectAndParseNormalColumns (bits : Nat) (count : Nat) (p : Proc) :
    Except Halt Proc :=
  readBenchmark bits selectNormalSql allFields count p

/-- The benchmark `BenchmarkSelectAndParseJsonbColumns`. -/
def BenchmarkSelectAndParseJsonbColumns (bits : Nat) (count : Nat) (p : Proc) :
    Except Halt Proc :=
  readBenchmark bits selectJsonbColumnsSql allFields count p

/-- The benchmark `BenchmarkSelectAndParseSingleJsonbField`. -/
def BenchmarkSelectAndParseSingleJsonbField (bits : Nat) (count : Nat) (p : Proc) :
    Except Halt Proc :=
  readBenchmark bits selectSingleJsonbSql (fun _ => [.ID]) count p

/-- The benchmark `BenchmarkSelectAndParseSingleNormalColumn`. -/
def BenchmarkSelectAndParseSingleNormalColumn (bits : Nat) (count : Nat) (p : Proc) :
    Except Halt Proc :=
  readBenchmark bits selectSingleNormalSql (fun _ => [.ID]) count p
/-! ## Reading a decimal numeral -/

/-- The value of a decimal digit character. -/
def digitValue (c : Char) : Nat := c.toNat - '0'.toNat

/-- The number that a list of decimal digits denotes, most significant first. -/
def decimalValue (ds : List Char) : Nat :=
  ds.foldl (fun acc c => acc * 10 + digitValue c) 0
/-! ## Auxiliary definitions for the statements below -/

/-- The row that the insert of `main` stores for a record: the document and the
twelve typed columns. -/
def seedRow (m : Model) : Row :=
  { j := some (marshal m), id := some m.ID, name := some m.Name, status := some m.Status,
    last_updated_at := m.LastUpdatedAt.map Time.truncMicros,
    last_modified_at := m.LastModifiedAt.map Time.truncMicros,
    num := m.Num, num2 := m.Num2,
    updated_at := m.UpdatedAt.map Time.truncMicros,
    created_at := m.CreatedAt.map Time.truncMicros,
    jumbled_at := m.JumbledAt.map Time.truncMicros,
    secret_code := some m.SecretCode, entries := some m.Entries }

/-- A process at its start: nothing sent, nothing printed, no clock reading yet. -/
def freshProc (db : DB) (connErr : Option String) (faults : Nat → Bool) (clock : Nat → Time) :
    Proc :=
  { db := db, connErr := connErr, faults := faults, clock := clock, reads := 0,
    sent := [], stdout := [], stderr := [] }

/-- The progress marks of `runTest` for the decoded models: one "." for each
model whose `ID` is a multiple of 100000. -/
def printDots (p : Proc) (models : List Model) : Proc :=
  models.foldl (fun q m => if m.ID % 100000 = 0 then q.print "." else q) p

/-- The exit status of a run that has terminated, if it has. -/
def haltCode {α : Type} : Except Halt α → Option Int
  | .ok _ => none
  | .error h => some h.code

/-- The lines on standard error of a run that has terminated, if it has. -/
def haltStderr {α : Type} : Except Halt α → Option (List String)
  | .ok _ => none
  | .error h => some h.proc.stderr

/-- The document that the update of `BenchmarkUpdate2JsonbFields` stores for
index `n` in place of an object: its members `name` and `num` are set. -/
def patchDoc (n : Nat) : Json → Json
  | .obj kvs => .obj (kvSet "num" (.num n) (kvSet "name" (.str ("UpdateName:" ++ fmtD n)) kvs))
  | .scalar v => .scalar v

/-- Whether the document of a row is a scalar (neither NULL nor an object). -/
def holdsScalar (r : Row) : Bool :=
  match r.j with
  | some (.scalar _) => true
  | _ => false

/-! # Theorems -/

/-! ## Lemmas on machine integers -/

theorem wrapInt_of_mem (bits : Nat) (hb : 0 < bits) (x : Int)
    (hlo : minInt bits ≤ x) (hhi : x ≤ maxInt bits) : wrapInt bits x = x := by
  unfold wrapInt
  unfold minInt at hlo
  unfold maxInt at hhi
  have hpow : (2 : Int) ^ bits = 2 * 2 ^ (bits - 1) := by
    obtain ⟨k, rfl⟩ : ∃ k, bits = k + 1 := ⟨bits - 1, by omega⟩
    simp [pow_succ, mul_comm]
  have hpos : (0 : Int) < 2 ^ (bits - 1) := by positivity
  rw [Int.emod_eq_of_lt (by omega) (by omega)]
  omega

theorem maxInt_ge (bits : Nat) (hb : 32 ≤ bits) : (2147483647 : Int) ≤ maxInt bits := by
  unfold maxInt
  have h : (2 : Int) ^ 31 ≤ 2 ^ (bits - 1) :=
    pow_le_pow_right₀ (by norm_num) (by omega)
  norm_num at h
  omega

theorem minInt_le (bits : Nat) (hb : 32 ≤ bits) : minInt bits ≤ (-2147483648 : Int) := by
  unfold minInt
  have h : (2 : Int) ^ 31 ≤ 2 ^ (bits - 1) :=
    pow_le_pow_right₀ (by norm_num) (by omega)
  norm_num at h
  omega

theorem wrapInt_small (bits : Nat) (hb : 32 ≤ bits) (x : Int)
    (hlo : -2147483648 ≤ x) (hhi : x ≤ 2147483647) : wrapInt bits x = x :=
  wrapInt_of_mem bits (by omega) x
    (le_trans (minInt_le bits hb) hlo) (le_trans hhi (maxInt_ge bits hb))


/-! ## The record generator -/

theorem digitValue_digitChar (d : Nat) (h : d < 10) : digitValue (Nat.digitChar d) = d := by
  interval_cases d <;> rfl

theorem foldl_digits_shift (ds : List Char) (a : Nat) :
    ds.foldl (fun acc c => acc * 10 + digitValue c) a
      = a * 10 ^ ds.length + decimalValue ds := by
  induction ds generalizing a with
  | nil => simp [decimalValue]
  | cons c cs ih =>
    simp only [List.foldl_cons, List.length_cons, decimalValue]
    rw [ih, ih (0 * 10 + digitValue c)]
    ring

theorem toDigitsCore_value (fuel : Nat) :
    ∀ (n : Nat) (ds : List Char), n < fuel →
      decimalValue (Nat.toDigitsCore 10 fuel n ds) = n * 10 ^ ds.length + decimalValue ds := by
  induction fuel with
  | zero => intro n ds h; omega
  | succ f ih =>
    intro n ds h
    have hcons : ∀ (c : Char), decimalValue (c :: ds)
        = digitValue c * 10 ^ ds.length + decimalValue ds := by
      intro c
      simp only [decimalValue, List.foldl_cons]
      rw [foldl_digits_shift]
      simp [decimalValue]
    simp only [Nat.toDigitsCore]
    by_cases h0 : n / 10 = 0
    · simp only [h0, if_true]
      rw [hcons, digitValue_digitChar _ (Nat.mod_lt _ (by norm_num))]
      have : n % 10 = n := by omega
      rw [this]
    · simp only [h0, if_false]
      rw [ih (n / 10) _ (by omega), hcons,
        digitValue_digitChar _ (Nat.mod_lt _ (by norm_num))]
      simp only [List.length_cons, pow_succ]
      have hn : n = 10 * (n / 10) + n % 10 := (Nat.div_add_mod n 10).symm
      generalize 10 ^ ds.length = q at *
      generalize decimalValue ds = r at *
      nth_rewrite 3 [hn]
      ring

theorem decimalValue_repr (n : Nat) : decimalValue (Nat.repr n).toList = n := by
  have h := toDigitsCore_value (n + 1) n [] (by omega)
  simpa [Nat.repr, Nat.toDigits, decimalValue] using h

theorem fmtD_of_nonneg (i : Int) (h : 0 ≤ i) : fmtD i = Nat.repr i.toNat := by
  simp [fmtD, not_lt.mpr h]

theorem wrapInt_add_of_overflow (bits : Nat) (hb : 32 ≤ bits) (x : Int)
    (hlo : maxInt bits < x) (hhi : x ≤ maxInt bits + 10) :
    wrapInt bits x = x - 2 ^ bits := by
  have hmax := maxInt_ge bits hb
  unfold wrapInt
  unfold maxInt at hlo hhi hmax
  have hpow : (2 : Int) ^ bits = 2 * 2 ^ (bits - 1) := by
    obtain ⟨k, rfl⟩ : ∃ k, bits = k + 1 := ⟨bits - 1, by omega⟩
    simp [pow_succ, mul_comm]
  have hsplit : x + 2 ^ (bits - 1) = (x + 2 ^ (bits - 1) - 2 ^ bits) + 2 ^ bits := by ring
  rw [hsplit, Int.add_emod_self, Int.emod_eq_of_lt (by omega) (by omega)]
  omega

/-- C1 (as amended): for `0 ≤ i ≤ MaxInt - 10` the generated record has `ID = i`,
`Num = Num2 = i + 7` and `Entries = i + 10`; for the larger indices of the
integer range the sums wrap around: `Entries = i + 10 - 2^bits` above
`MaxInt - 10` and `Num = Num2 = i + 7 - 2^bits` above `MaxInt - 7`. -/
theorem createModel_numbers (bits : Nat) (hb : 32 ≤ bits) (now : Time) (i : Int)
    (h0 : 0 ≤ i) (hmax : i ≤ maxInt bits) :
    (createModel bits now i).ID = i ∧
    (i ≤ maxInt bits - 10 →
      (createModel bits now i).Num = some (i + 7) ∧
      (createModel bits now i).Num2 = some (i + 7) ∧
      (createModel bits now i).Entries = i + 10) ∧
    (maxInt bits - 10 < i → (createModel bits now i).Entries = i + 10 - 2 ^ bits) ∧
    (maxInt bits - 7 < i →
      (createModel bits now i).Num = some (i + 7 - 2 ^ bits) ∧
      (createModel bits now i).Num2 = some (i + 7 - 2 ^ bits)) := by
  have hmin := minInt_le bits hb
  refine ⟨rfl, ?_, ?_, ?_⟩
  · intro h
    have h7 : wrapInt bits (i + 7) = i + 7 :=
      wrapInt_of_mem bits (by omega) _ (by omega) (by omega)
    have h10 : wrapInt bits (i + 10) = i + 10 :=
      wrapInt_of_mem bits (by omega) _ (by omega) (by omega)
    simp [createModel, h7, h10]
  · intro h
    simp [createModel, wrapInt_add_of_overflow bits hb (i + 10) (by omega) (by omega)]
  · intro h
    simp [createModel, wrapInt_add_of_overflow bits hb (i + 7) (by omega) (by omega)]

/-- Witness for C1 on a 64-bit platform: the index 42, and the largest index,
where the sums wrap around. -/
theorem createModel_numbers_witness :
    ((createModel 64 ⟨0⟩ 42).Num = some (42 + 7) ∧
      (createModel 64 ⟨0⟩ 42).Num2 = some (42 + 7) ∧
      (createModel 64 ⟨0⟩ 42).Entries = 42 + 10) ∧
    (createModel 64 ⟨0⟩ 9223372036854775807).Entries = 9223372036854775807 + 10 - 2 ^ 64 :=
  ⟨(createModel_numbers 64 (by decide) ⟨0⟩ 42 (by decide) (by decide)).2.1 (by decide),
   (createModel_numbers 64 (by decide) ⟨0⟩ 9223372036854775807 (by decide) (by decide)).2.2.1
     (by decide)⟩

/-- C1 (counterexample): on a 64-bit platform the index `i = MaxInt = 2^63 - 1`
is in the integer range, yet `Num`, `Num2` and `Entries` of `createModel(i)` are
negative, not `i + 7` and `i + 10`. -/
theorem createModel_numbers_counterexample :
    (0 : Int) ≤ 9223372036854775807 ∧ (9223372036854775807 : Int) ≤ maxInt 64 ∧
    (createModel 64 ⟨0⟩ 9223372036854775807).Num = some (-9223372036854775802) ∧
    (createModel 64 ⟨0⟩ 9223372036854775807).Num2 = some (-9223372036854775802) ∧
    (createModel 64 ⟨0⟩ 9223372036854775807).Entries = -9223372036854775799 ∧
    ¬ ((createModel 64 ⟨0⟩ 9223372036854775807).Num = some (9223372036854775807 + 7) ∧
       (createModel 64 ⟨0⟩ 9223372036854775807).Num2 = some (9223372036854775807 + 7) ∧
       (createModel 64 ⟨0⟩ 9223372036854775807).Entries = 9223372036854775807 + 10) := by
  decide

/-- C2: for `i ≥ 0` the generated record has `Name = "MyName:" ++ d`,
`Status = "MyStatus:" ++ d` and `SecretCode = "MyCode:" ++ d`, where `d` is the
decimal rendering of `i` (a numeral whose decimal value is `i`); for `i = 42` the
name is "MyName:42", the secret code "MyCode:42", `Num` is 49 and `Entries` 52. -/
theorem createModel_strings (bits : Nat) (hb : 32 ≤ bits) (now : Time) (i : Int) (h0 : 0 ≤ i) :
    (createModel bits now i).Name = "MyName:" ++ Nat.repr i.toNat ∧
    (createModel bits now i).Status = "MyStatus:" ++ Nat.repr i.toNat ∧
    (createModel bits now i).SecretCode = "MyCode:" ++ Nat.repr i.toNat ∧
    ((decimalValue (Nat.repr i.toNat).toList : Int) = i) ∧
    (createModel bits now 42).Name = "MyName:42" ∧
    (createModel bits now 42).SecretCode = "MyCode:42" ∧
    (createModel bits now 42).Num = some 49 ∧
    (createModel bits now 42).Entries = 52 := by
  have h49 : wrapInt bits 49 = 49 :=
    wrapInt_small bits hb _ (by norm_num) (by norm_num)
  have h52 : wrapInt bits 52 = 52 :=
    wrapInt_small bits hb _ (by norm_num) (by norm_num)
  have hd : fmtD 42 = "42" := by decide
  refine ⟨?_, ?_, ?_, ?_, ?_, ?_, ?_, ?_⟩
  · simp [createModel, fmtD_of_nonneg i h0]
  · simp [createModel, fmtD_of_nonneg i h0]
  · simp [createModel, fmtD_of_nonneg i h0]
  · rw [decimalValue_repr]; exact Int.toNat_of_nonneg h0
  · simp only [createModel, hd]; decide
  · simp only [createModel, hd]; decide
  · simp [createModel, h49]
  · simp [createModel, h52]

/-- Witness for C2 on a 64-bit platform at index 42. -/
theorem createModel_strings_witness :
    (createModel 64 ⟨0⟩ 42).Name = "MyName:" ++ Nat.repr (42 : Int).toNat ∧
    (createModel 64 ⟨0⟩ 42).Status = "MyStatus:" ++ Nat.repr (42 : Int).toNat ∧
    (createModel 64 ⟨0⟩ 42).SecretCode = "MyCode:" ++ Nat.repr (42 : Int).toNat ∧
    ((decimalValue (Nat.repr (42 : Int).toNat).toList : Int) = 42) ∧
    (createModel 64 ⟨0⟩ 42).Name = "MyName:42" ∧
    (createModel 64 ⟨0⟩ 42).SecretCode = "MyCode:42" ∧
    (createModel 64 ⟨0⟩ 42).Num = some 49 ∧
    (createModel 64 ⟨0⟩ 42).Entries = 52 :=
  createModel_strings 64 (by decide) ⟨0⟩ 42 (by decide)

/-- C10: every optional field of a generated record is present: the five
timestamps all hold the instant read at the call, and `Num` and `Num2` hold an
integer (the same one). -/
theorem createModel_optional_fields_present (bits : Nat) (now : Time) (i : Int) :
    (createModel bits now i).LastUpdatedAt = some now ∧
    (createModel bits now i).LastModifiedAt = some now ∧
    (createModel bits now i).UpdatedAt = some now ∧
    (createModel bits now i).CreatedAt = some now ∧
    (createModel bits now i).JumbledAt = some now ∧
    (createModel bits now i).Num.isSome = true ∧
    (createModel bits now i).Num2.isSome = true ∧
    (createModel bits now i).Num = (createModel bits now i).Num2 :=
  ⟨rfl, rfl, rfl, rfl, rfl, rfl, rfl, rfl⟩

/-! ## The connection -/

theorem forRange_succ (body : Nat → Proc → Except Halt Proc) (k i : Nat) (p : Proc) :
    forRange body (k + 1) i p =
      (match body i p with
       | .error h => .error h
       | .ok p1 => forRange body k (i + 1) p1) := rfl

theorem range_succ_map {α : Type} (k : Nat) (f : Nat → α) :
    (List.range (k + 1)).map f = f 0 :: (List.range k).map (fun d => f (d + 1)) := by
  rw [List.range_succ_eq_map]
  simp [List.map_map, Function.comp_def]

/-- What `conn.Exec` leaves unchanged, and what it sends. -/
theorem Exec_frame (p : Proc) (s : Stmt) :
    (p.Exec s).2.sent = p.sent ++ [s] ∧ (p.Exec s).2.stderr = p.stderr ∧
    (p.Exec s).2.stdout = p.stdout ∧ (p.Exec s).2.reads = p.reads ∧
    (p.Exec s).2.clock = p.clock ∧ (p.Exec s).2.faults = p.faults ∧
    (p.Exec s).2.connErr = p.connErr := by
  unfold Proc.Exec
  by_cases hf : p.faults p.sent.length = true
  · simp [hf]
  · cases h : pgExec p.db s <;> simp [hf, h]

/-- A statement that fails leaves the database as it was. -/
theorem Exec_db_of_error (p : Proc) (s : Stmt) (h : (p.Exec s).1 ≠ none) :
    (p.Exec s).2.db = p.db := by
  unfold Proc.Exec at h ⊢
  by_cases hf : p.faults p.sent.length = true
  · simp [hf]
  · cases hx : pgExec p.db s <;> simp_all

/-- A statement that is not lost in transit has the effect of `pgExec`. -/
theorem Exec_of_no_fault (p : Proc) (s : Stmt) (db1 : DB)
    (hf : p.faults p.sent.length = false) (hx : pgExec p.db s = .ok db1) :
    (p.Exec s).1 = none ∧ (p.Exec s).2.db = db1 := by
  unfold Proc.Exec
  simp [hf, hx]

/-- A statement lost in transit reports an error. -/
theorem Exec_of_fault (p : Proc) (s : Stmt) (hf : p.faults p.sent.length = true) :
    (p.Exec s).1 = some "connection failure" := by
  unfold Proc.Exec
  simp [hf]

/-! ## The seeder -/

/-- The state after one iteration of the seeding loop. -/
theorem seedBody_eq (bits : Nat) (i : Nat) (p : Proc) :
    seedBody bits i p = .ok
      (Proc.Exec { (if i % 100000 = 0 then p.print (fmtD i ++ "\n") else p) with
                     reads := p.reads + 1 }
        (seedStmt (createModel bits (p.clock p.reads) i))).2 := by
  by_cases hm : i % 100000 = 0 <;> simp [seedBody, Proc.timeNow, Proc.print, hm]

/-- What one iteration of the seeding loop leaves unchanged, and what it sends. -/
theorem seedBody_frame (bits : Nat) (i : Nat) (p : Proc) :
    ∃ q, seedBody bits i p = .ok q ∧
      q.sent = p.sent ++ [seedStmt (createModel bits (p.clock p.reads) i)] ∧
      q.stderr = p.stderr ∧ q.reads = p.reads + 1 ∧ q.clock = p.clock ∧
      q.faults = p.faults ∧ q.connErr = p.connErr := by
  refine ⟨_, seedBody_eq bits i p, ?_⟩
  obtain ⟨h1, h2, -, h4, h5, h6, h7⟩ := Exec_frame
    { (if i % 100000 = 0 then p.print (fmtD i ++ "\n") else p) with reads := p.reads + 1 }
    (seedStmt (createModel bits (p.clock p.reads) i))
  rw [h1, h2, h4, h5, h6, h7]
  by_cases hm : i % 100000 = 0 <;> simp [hm, Proc.print]

/-- The seeding loop never terminates the process; it sends one insert per
index, in order, and never writes to standard error. -/
theorem seedLoop_frame (bits : Nat) (k : Nat) :
    ∀ (i : Nat) (p : Proc), ∃ q, forRange (seedBody bits) k i p = .ok q ∧
      q.sent = p.sent ++ (List.range k).map
        (fun d => seedStmt (createModel bits (p.clock (p.reads + d)) ((i + d : Nat) : Int))) ∧
      q.stderr = p.stderr ∧ q.reads = p.reads + k ∧ q.clock = p.clock ∧
      q.faults = p.faults ∧ q.connErr = p.connErr := by
  induction k with
  | zero => intro i p; exact ⟨p, rfl, by simp⟩
  | succ k ih =>
    intro i p
    obtain ⟨q1, hq1, hs1, he1, hr1, hc1, hf1, hn1⟩ := seedBody_frame bits i p
    obtain ⟨q, hq, hs, he, hr, hc, hf, hn⟩ := ih (i + 1) q1
    refine ⟨q, ?_, ?_, ?_, ?_, ?_, ?_, ?_⟩
    · rw [forRange_succ, hq1]; exact hq
    · rw [hs, hs1, range_succ_map, hc1, hr1]
      simp [List.append_assoc, Nat.add_assoc, Nat.add_comm 1]
    · rw [he, he1]
    · rw [hr, hr1]; omega
    · rw [hc, hc1]
    · rw [hf, hf1]
    · rw [hn, hn1]

theorem fitsInt4_of_range (n : Int) (hlo : -2147483648 ≤ n) (hhi : n ≤ 2147483647) :
    fitsInt4 n = true := by
  simp [fitsInt4, hlo, hhi]

theorem fitsInt_of_int4 (bits : Nat) (hb : 32 ≤ bits) (n : Int) (h : fitsInt4 n = true) :
    fitsInt bits n = true := by
  simp only [fitsInt4, Bool.and_eq_true, decide_eq_true_eq] at h
  have h1 := minInt_le bits hb
  have h2 := maxInt_ge bits hb
  simp only [fitsInt, Bool.and_eq_true, decide_eq_true_eq]
  omega

/-- The row built by the insert of `main` for a record whose integers fit the
SQL type `integer`. -/
theorem buildRow_seed (m : Model) (n n2 : Int) (hn : m.Num = some n) (hn2 : m.Num2 = some n2)
    (hid : fitsInt4 m.ID = true) (he : fitsInt4 m.Entries = true)
    (h1 : fitsInt4 n = true) (h2 : fitsInt4 n2 = true) :
    pgExec db (seedStmt m) =
      (match db.perf with
       | none => .error "relation does not exist"
       | some rows => .ok { db with perf := some (rows ++ [seedRow m]) }) := by
  cases hp : db.perf with
  | none => simp [pgExec, seedStmt, DB.table, hp]
  | some rows =>
    cases hA : m.LastUpdatedAt <;> cases hB : m.LastModifiedAt <;> cases hC : m.UpdatedAt <;>
      cases hD : m.CreatedAt <;> cases hE : m.JumbledAt <;>
      simp [pgExec, seedStmt, DB.table, DB.setTable, hp, buildRow, Row.set, Row.null, Arg.toSql,
        asJsonb, asInt4, asVarchar, asTimestamp, seedRow, hn, hn2, hid, he, h1, h2,
        hA, hB, hC, hD, hE, Except.map]

/-- The insert of `main` for a generated record of index below `2^31 - 10`. -/
theorem pgExec_seed_createModel (bits : Nat) (hb : 32 ≤ bits) (now : Time) (i : Nat)
    (hi : i ≤ 2147483637) (db : DB) (rows : List Row) (hp : db.perf = some rows) :
    pgExec db (seedStmt (createModel bits now i)) =
      .ok { db with perf := some (rows ++ [seedRow (createModel bits now i)]) } := by
  have h7 : wrapInt bits ((i : Int) + 7) = i + 7 :=
    wrapInt_small bits hb _ (by omega) (by omega)
  have h10 : wrapInt bits ((i : Int) + 10) = i + 10 :=
    wrapInt_small bits hb _ (by omega) (by omega)
  have h := @buildRow_seed db (createModel bits now i) (i + 7) (i + 7)
    (by simp [createModel, h7]) (by simp [createModel, h7])
    (fitsInt4_of_range _ (by simp [createModel]; omega) (by simp [createModel]; omega))
    (fitsInt4_of_range _ (by simp [createModel, h10]; omega) (by simp [createModel, h10]; omega))
    (fitsInt4_of_range _ (by omega) (by omega)) (fitsInt4_of_range _ (by omega) (by omega))
  rw [h, hp]

/-- The seeding loop on an existing table when no insert is lost in transit:
one row per index is appended, in order. -/
theorem seedLoop_rows (bits : Nat) (hb : 32 ≤ bits) (k : Nat) :
    ∀ (i : Nat) (p : Proc) (rows : List Row), p.db.perf = some rows →
      (∀ d, d < k → p.faults (p.sent.length + d) = false) → i + k ≤ 2147483638 →
      ∃ q, forRange (seedBody bits) k i p = .ok q ∧
        q.db.perf = some (rows ++ (List.range k).map
          (fun d => seedRow (createModel bits (p.clock (p.reads + d)) ((i + d : Nat) : Int)))) ∧
        q.db.perf2 = p.db.perf2 := by
  induction k with
  | zero => intro i p rows hp _ _; exact ⟨p, rfl, by simpa using hp, rfl⟩
  | succ k ih =>
    intro i p rows hp hf hi
    obtain ⟨q1, hq1, hs1, -, hr1, hc1, hf1, -⟩ := seedBody_frame bits i p
    have hq1' := seedBody_eq bits i p
    rw [hq1] at hq1'
    have hq1eq := Except.ok.inj hq1'
    have hx := pgExec_seed_createModel bits hb (p.clock p.reads) i (by omega) p.db rows hp
    have hdb : q1.db = { p.db with perf := some (rows ++ [seedRow (createModel bits (p.clock p.reads) i)]) } := by
      rw [hq1eq]
      refine (Exec_of_no_fault _ _ _ ?_ ?_).2
      · have := hf 0 (by omega)
        by_cases hm : i % 100000 = 0 <;> simpa [hm, Proc.print] using this
      · by_cases hm : i % 100000 = 0 <;> simpa [hm, Proc.print] using hx
    obtain ⟨q, hq, hrows, hp2⟩ := ih (i + 1) q1 _ (by rw [hdb]) (by
      intro d hd
      rw [hf1, hs1]
      have := hf (d + 1) (by omega)
      simpa [Nat.add_assoc, Nat.add_comm 1] using this) (by omega)
    refine ⟨q, ?_, ?_, ?_⟩
    · rw [forRange_succ, hq1]; exact hq
    · rw [hrows, range_succ_map, hc1, hr1]
      simp [List.append_assoc, Nat.add_assoc, Nat.add_comm 1]
    · rw [hp2, hdb]

/-- The seeder on a process that could connect is its loop. -/
theorem seed_eq_loop (bits : Nat) (count : Nat) (p : Proc) (hc : p.connErr = none) :
    seed bits count p = forRange (seedBody bits) count 0 p := by
  simp only [seed, hc]

/-- The seeder with any population size, started on a fresh process that could
connect: it returns, reports nothing, and sends one insert per index. -/
theorem seed_frame (bits : Nat) (count : Nat) (db : DB) (faults : Nat → Bool)
    (clock : Nat → Time) :
    exitCode (seed bits count (freshProc db none faults clock)) = 0 ∧
    (final (seed bits count (freshProc db none faults clock))).stderr = [] ∧
    (final (seed bits count (freshProc db none faults clock))).sent =
      (List.range count).map (fun i => seedStmt (createModel bits (clock i) i)) := by
  obtain ⟨q, hq, hs, he, -⟩ := seedLoop_frame bits count 0 (freshProc db none faults clock)
  rw [seed_eq_loop bits count _ rfl, hq]
  refine ⟨rfl, ?_, ?_⟩
  · simpa [final, freshProc] using he
  · simpa [final, freshProc] using hs

/-- The seeder with any population size below `2^31 - 10`, started on an
existing table `perf` with no insert lost in transit after the first `skip`
statements: the rows of the indices from `skip` on are appended in order. -/
theorem seed_rows (bits : Nat) (hb : 32 ≤ bits) (count : Nat) (hc : count ≤ 2147483638)
    (rows : List Row) (perf2 : Option (List Row)) (clock : Nat → Time) :
    ∃ q, seed bits count (freshProc ⟨some rows, perf2⟩ none (fun _ => false) clock) = .ok q ∧
      q.db.perf = some (rows ++ (List.range count).map
        (fun i => seedRow (createModel bits (clock i) i))) ∧
      q.db.perf2 = perf2 := by
  obtain ⟨q, hq, hr, h2⟩ := seedLoop_rows bits hb count 0
    (freshProc ⟨some rows, perf2⟩ none (fun _ => false) clock) rows rfl
    (by intro d _; rfl) (by omega)
  refine ⟨q, ?_, ?_, ?_⟩
  · rw [seed_eq_loop bits count _ rfl, hq]
  · simpa [freshProc] using hr
  · simpa [freshProc] using h2

/-- The decoding of the document of a record whose integers fit `int` gives the
record back. -/
theorem unmarshal_marshal_createModel (bits : Nat) (hb : 32 ≤ bits) (now : Time) (i : Nat)
    (hi : i ≤ 2147483637) :
    unmarshal bits (marshal (createModel bits now i)) Model.zero = .ok (createModel bits now i) := by
  have h7 : wrapInt bits ((i : Int) + 7) = i + 7 :=
    wrapInt_small bits hb _ (by omega) (by omega)
  have h10 : wrapInt bits ((i : Int) + 10) = i + 10 :=
    wrapInt_small bits hb _ (by omega) (by omega)
  have f0 : fitsInt bits (i : Int) = true :=
    fitsInt_of_int4 bits hb _ (fitsInt4_of_range _ (by omega) (by omega))
  have f7 : fitsInt bits ((i : Int) + 7) = true :=
    fitsInt_of_int4 bits hb _ (fitsInt4_of_range _ (by omega) (by omega))
  have f10 : fitsInt bits ((i : Int) + 10) = true :=
    fitsInt_of_int4 bits hb _ (fitsInt4_of_range _ (by omega) (by omega))
  simp [unmarshal, marshal, setMembers, setMember, decInt, decStr, decTime, decOptInt,
    jsonOfTime, jsonOfInt, createModel, Model.zero, h7, h10, f0, f7, f10, Except.map]

theorem getElem?_map_range {α : Type} (f : Nat → α) (n i : Nat) (h : i < n) :
    ((List.range n).map f)[i]? = some (f i) := by
  rw [List.getElem?_map, List.getElem?_range h]
  rfl

/-- The seeder whose first insert is lost in transit, on an existing empty
table: it still returns, reports nothing, and stores the rows of the later
indices only. -/
theorem seed_first_lost (bits : Nat) (hb : 32 ≤ bits) (k : Nat) (hk : k ≤ 2147483637)
    (perf2 : Option (List Row)) (clock : Nat → Time) :
    ∃ q, seed bits (k + 1)
        (freshProc ⟨some [], perf2⟩ none (fun n => decide (n = 0)) clock) = .ok q ∧
      q.stderr = [] ∧
      q.db.perf = some ((List.range k).map
        (fun d => seedRow (createModel bits (clock (d + 1)) ((d + 1 : Nat) : Int)))) := by
  obtain ⟨q1, hq1, hs1, he1, hr1, hc1, hf1, -⟩ :=
    seedBody_frame bits 0 (freshProc ⟨some [], perf2⟩ none (fun n => decide (n = 0)) clock)
  have hq1' := seedBody_eq bits 0
    (freshProc ⟨some [], perf2⟩ none (fun n => decide (n = 0)) clock)
  rw [hq1] at hq1'
  have hdb : q1.db = ⟨some [], perf2⟩ := by
    rw [Except.ok.inj hq1']
    rw [Exec_db_of_error]
    · simp [freshProc, Proc.print]
    · rw [Exec_of_fault]
      · simp
      · simp [freshProc, Proc.print]
  obtain ⟨q, hq, hr, -⟩ := seedLoop_rows bits hb k 1 q1 [] (by rw [hdb])
    (by intro d _; rw [hf1, hs1]; simp [freshProc]) (by omega)
  obtain ⟨q', hq', -, he', -⟩ := seedLoop_frame bits k 1 q1
  rw [hq] at hq'
  have hqq : q = q' := Except.ok.inj hq'
  refine ⟨q, ?_, ?_, ?_⟩
  · rw [seed_eq_loop bits (k + 1) _ rfl, forRange_succ, hq1]
    exact hq
  · rw [hqq, he', he1]; rfl
  · rw [hr, hc1, hr1]
    simp [freshProc, Nat.add_comm 1]

theorem seedRow_ids (bits : Nat) (clock : Nat → Time) (k s : Nat) :
    ((List.range k).map
      (fun d => seedRow (createModel bits (clock (d + s)) ((d + s : Nat) : Int)))).map
        (fun r => r.id)
      = (List.range k).map (fun (d : Nat) => some ((d : Int) + (s : Int))) := by
  simp [List.map_map, Function.comp_def, seedRow, createModel]

/-- C3 (the code on failing inserts): whatever the database and whichever
statements fail, once connected `main` returns with exit status 0, writes
nothing to standard error and sends all 2,000,000 inserts; with no table `perf`
the insert for index 0 fails and the insert for index 1 is sent all the same. -/
theorem main_ignores_failed_inserts (bits : Nat) (db : DB) (faults : Nat → Bool)
    (clock : Nat → Time) :
    exitCode (main bits (freshProc db none faults clock)) = 0 ∧
    (final (main bits (freshProc db none faults clock))).stderr = [] ∧
    (final (main bits (freshProc db none faults clock))).sent =
      (List.range 2000000).map (fun i => seedStmt (createModel bits (clock i) i)) ∧
    ((freshProc ⟨none, none⟩ none (fun _ => false) clock).Exec
        (seedStmt (createModel bits (clock 0) 0))).1 = some "relation does not exist" ∧
    (final (main bits (freshProc ⟨none, none⟩ none (fun _ => false) clock))).sent[1]? =
      some (seedStmt (createModel bits (clock 1) 1)) := by
  unfold main
  obtain ⟨h1, h2, h3⟩ := seed_frame bits 2000000 db faults clock
  refine ⟨h1, h2, h3, ?_, ?_⟩
  · simp [Proc.Exec, freshProc, pgExec, seedStmt, DB.table]
  · rw [(seed_frame bits 2000000 ⟨none, none⟩ (fun _ => false) clock).2.2]
    exact getElem?_map_range _ 2000000 1 (by norm_num)

/-- C4 (the code at the failing input): started on an existing empty table
`perf`, `main` with no failing insert leaves exactly 2,000,000 rows with the
ids 0, 1, ..., 1,999,999 in order; when the first insert is lost in transit
`main` still runs to completion, reporting nothing, and leaves 1,999,999 rows
with the ids 1, ..., 1,999,999: the id 0 is missing. -/
theorem main_completes_with_rows_missing (bits : Nat) (hb : 32 ≤ bits) (clock : Nat → Time) :
    (∃ q rows, main bits (freshProc ⟨some [], none⟩ none (fun _ => false) clock) = .ok q ∧
      q.db.perf = some rows ∧ rows.length = 2000000 ∧
      rows.map (fun r => r.id) = (List.range 2000000).map (fun (i : Nat) => some (i : Int))) ∧
    (∃ q rows, main bits (freshProc ⟨some [], none⟩ none (fun n => decide (n = 0)) clock) = .ok q ∧
      q.stderr = [] ∧ q.db.perf = some rows ∧ rows.length = 1999999 ∧
      rows.map (fun r => r.id) = (List.range 1999999).map (fun (d : Nat) => some ((d : Int) + 1)) ∧
      (some 0 ∉ rows.map (fun r => r.id))) := by
  unfold main
  constructor
  · obtain ⟨q, hq, hr, -⟩ := seed_rows bits hb 2000000 (by norm_num) [] none clock
    refine ⟨q, _, hq, hr, ?_, ?_⟩
    · rw [List.nil_append, List.length_map, List.length_range]
    · rw [List.nil_append]
      have h := seedRow_ids bits clock 2000000 0
      simpa only [Nat.add_zero, Nat.cast_zero, add_zero] using h
  · obtain ⟨q, hq, he, hr⟩ := seed_first_lost bits hb 1999999 (by norm_num) none clock
    have hids := seedRow_ids bits clock 1999999 1
    refine ⟨q, _, hq, he, hr, ?_, ?_, ?_⟩
    · rw [List.length_map, List.length_range]
    · simpa only [Nat.cast_one] using hids
    · rw [hids]
      intro hmem
      obtain ⟨d, -, hd⟩ := List.mem_map.mp hmem
      have := Option.some.inj hd
      omega

/-- Witness for C4 on a 64-bit platform. -/
theorem main_completes_with_rows_missing_witness :
    (∃ q rows, main 64 (freshProc ⟨some [], none⟩ none (fun _ => false) (fun _ => ⟨0⟩)) = .ok q ∧
      q.db.perf = some rows ∧ rows.length = 2000000 ∧
      rows.map (fun r => r.id) = (List.range 2000000).map (fun (i : Nat) => some (i : Int))) ∧
    (∃ q rows, main 64 (freshProc ⟨some [], none⟩ none (fun n => decide (n = 0)) (fun _ => ⟨0⟩))
        = .ok q ∧
      q.stderr = [] ∧ q.db.perf = some rows ∧ rows.length = 1999999 ∧
      rows.map (fun r => r.id) = (List.range 1999999).map (fun (d : Nat) => some ((d : Int) + 1)) ∧
      (some 0 ∉ rows.map (fun r => r.id))) :=
  main_completes_with_rows_missing 64 (by decide) (fun _ => ⟨0⟩)

/-! ## The two representations of a seeded row -/

/-- The row stored for a generated record, column by column. -/
theorem seedRow_createModel (bits : Nat) (now : Time) (i : Int) :
    seedRow (createModel bits now i) =
      { j := some (marshal (createModel bits now i)),
        id := some (createModel bits now i).ID,
        name := some (createModel bits now i).Name,
        status := some (createModel bits now i).Status,
        last_updated_at := some now.truncMicros,
        last_modified_at := some now.truncMicros,
        num := (createModel bits now i).Num,
        num2 := (createModel bits now i).Num2,
        updated_at := some now.truncMicros,
        created_at := some now.truncMicros,
        jumbled_at := some now.truncMicros,
        secret_code := some (createModel bits now i).SecretCode,
        entries := some (createModel bits now i).Entries } := by
  simp [seedRow, createModel]

/-- The document read path on the row of a generated record decodes the record
itself, with the instant as it was read. -/
theorem document_read_of_seedRow (bits : Nat) (hb : 32 ≤ bits) (now : Time) (i : Nat)
    (hi : i ≤ 2147483637) (perf2 : Option (List Row)) (p : Proc) :
    ∃ rows, pgQuery ⟨some [seedRow (createModel bits now i)], perf2⟩ selectJsonbSql = .ok rows ∧
      runTest bits p rows (fun _ => [.whole]) =
        .ok ([createModel bits now i], printDots p [createModel bits now i]) := by
  refine ⟨_, rfl, ?_⟩
  have hrow : [(seedRow (createModel bits now i)).get .j]
      = [.jsonb (marshal (createModel bits now i))] := by
    simp [Row.get, seedRow]
  have hscan : Scan bits [.jsonb (marshal (createModel bits now i))] [.whole] Model.zero
      = .ok (createModel bits now i) := by
    simp only [Scan, assign, unmarshal_marshal_createModel bits hb now i hi]
  simp only [pgQuery, selectJsonbSql, DB.table, selectRows, evalAll, eval, runTest,
    runTestLoop, List.nil_append]
  rw [hrow, hscan]
  rfl

/-- The typed read path on the row of a generated record decodes the record
with its five timestamps truncated to microseconds. -/
theorem typed_read_of_seedRow (bits : Nat) (hb : 32 ≤ bits) (now : Time) (i : Nat)
    (hi : i ≤ 2147483637) (perf2 : Option (List Row)) (p : Proc) :
    ∃ rows, pgQuery ⟨some [seedRow (createModel bits now i)], perf2⟩ selectNormalSql = .ok rows ∧
      runTest bits p rows allFields =
        .ok ([{ createModel bits now i with
                  LastUpdatedAt := some now.truncMicros, LastModifiedAt := some now.truncMicros,
                  UpdatedAt := some now.truncMicros, CreatedAt := some now.truncMicros,
                  JumbledAt := some now.truncMicros }],
             printDots p [{ createModel bits now i with
                  LastUpdatedAt := some now.truncMicros, LastModifiedAt := some now.truncMicros,
                  UpdatedAt := some now.truncMicros, CreatedAt := some now.truncMicros,
                  JumbledAt := some now.truncMicros }]) := by
  have h7 : wrapInt bits ((i : Int) + 7) = i + 7 :=
    wrapInt_small bits hb _ (by omega) (by omega)
  have h10 : wrapInt bits ((i : Int) + 10) = i + 10 :=
    wrapInt_small bits hb _ (by omega) (by omega)
  have f0 : fitsInt bits (i : Int) = true :=
    fitsInt_of_int4 bits hb _ (fitsInt4_of_range _ (by omega) (by omega))
  have f7 : fitsInt bits ((i : Int) + 7) = true :=
    fitsInt_of_int4 bits hb _ (fitsInt4_of_range _ (by omega) (by omega))
  have f10 : fitsInt bits ((i : Int) + 10) = true :=
    fitsInt_of_int4 bits hb _ (fitsInt4_of_range _ (by omega) (by omega))
  refine ⟨_, rfl, ?_⟩
  have hrow : [(seedRow (createModel bits now i)).get .id,
        (seedRow (createModel bits now i)).get .name,
        (seedRow (createModel bits now i)).get .status,
        (seedRow (createModel bits now i)).get .last_updated_at,
        (seedRow (createModel bits now i)).get .last_modified_at,
        (seedRow (createModel bits now i)).get .num,
        (seedRow (createModel bits now i)).get .num2,
        (seedRow (createModel bits now i)).get .updated_at,
        (seedRow (createModel bits now i)).get .created_at,
        (seedRow (createModel bits now i)).get .jumbled_at,
        (seedRow (createModel bits now i)).get .secret_code,
        (seedRow (createModel bits now i)).get .entries]
      = [.int i, .text ("MyName:" ++ fmtD i), .text ("MyStatus:" ++ fmtD i),
             .ts now.truncMicros, .ts now.truncMicros, .int (i + 7), .int (i + 7),
             .ts now.truncMicros, .ts now.truncMicros, .ts now.truncMicros,
             .text ("MyCode:" ++ fmtD i), .int (i + 10)] := by
    simp [Row.get, seedRow, createModel, h7, h10]
  have hscan : Scan bits [.int i, .text ("MyName:" ++ fmtD i), .text ("MyStatus:" ++ fmtD i),
             .ts now.truncMicros, .ts now.truncMicros, .int (i + 7), .int (i + 7),
             .ts now.truncMicros, .ts now.truncMicros, .ts now.truncMicros,
             .text ("MyCode:" ++ fmtD i), .int (i + 10)] (allFields Model.zero) Model.zero
      = .ok { createModel bits now i with
                  LastUpdatedAt := some now.truncMicros, LastModifiedAt := some now.truncMicros,
                  UpdatedAt := some now.truncMicros, CreatedAt := some now.truncMicros,
                  JumbledAt := some now.truncMicros } := by
    simp [Scan, allFields, assign, scanInt, scanStr, scanOptTime, scanOptInt, Model.zero,
      createModel, h7, h10, f0, f7, f10, Except.map]
  simp only [pgQuery, selectNormalSql, DB.table, selectRows, evalAll, eval, runTest,
    runTestLoop, List.nil_append]
  rw [hrow, hscan]
  rfl

/-- C5 (as amended): for every index `i < 2,000,000` the statement number `i`
that `main` sends is the insert into `perf` whose thirteen columns `j, id, name,
status, last_updated_at, last_modified_at, num, num2, updated_at, created_at,
jumbled_at, secret_code, entries` are bound, in that order, to one record
`m = createModel(i)` as a whole and to the same-named fields of `m`. In the row
that this insert stores, the document decodes to `m` and the typed columns
decode to `mT`: the two agree on `id`, `name`, `status`, `num`, `num2`,
`secret_code` and `entries`, and on each of the five timestamps up to the
truncation of the typed column to microseconds (the document keeps the instant
as it was read). -/
theorem seed_insert_binds_one_record (bits : Nat) (hb : 32 ≤ bits) (db : DB)
    (faults : Nat → Bool) (clock : Nat → Time) (i : Nat) (hi : i < 2000000)
    (perf2 : Option (List Row)) (p : Proc) :
    ∃ m mT : Model, m = createModel bits (clock i) i ∧
      mT = { m with
               LastUpdatedAt := some (clock i).truncMicros,
               LastModifiedAt := some (clock i).truncMicros,
               UpdatedAt := some (clock i).truncMicros,
               CreatedAt := some (clock i).truncMicros,
               JumbledAt := some (clock i).truncMicros } ∧
      (final (main bits (freshProc db none faults clock))).sent[i]? = some
        (Stmt.insert .perf
          [.j, .id, .name, .status, .last_updated_at, .last_modified_at, .num, .num2,
           .updated_at, .created_at, .jumbled_at, .secret_code, .entries]
          [.model m, .int m.ID, .str m.Name, .str m.Status, .optTime m.LastUpdatedAt,
           .optTime m.LastModifiedAt, .optInt m.Num, .optInt m.Num2, .optTime m.UpdatedAt,
           .optTime m.CreatedAt, .optTime m.JumbledAt, .str m.SecretCode, .int m.Entries]) ∧
      (Arg.model m).toSql = .jsonb (marshal m) ∧
      unmarshal bits (marshal m) Model.zero = .ok m ∧
      (∀ (d : DB) (rows : List Row), d.perf = some rows →
        pgExec d (seedStmt m) = .ok { d with perf := some (rows ++ [seedRow m]) }) ∧
      seedRow m =
        { j := some (marshal m), id := some m.ID, name := some m.Name,
          status := some m.Status,
          last_updated_at := some (clock i).truncMicros,
          last_modified_at := some (clock i).truncMicros,
          num := m.Num, num2 := m.Num2,
          updated_at := some (clock i).truncMicros,
          created_at := some (clock i).truncMicros,
          jumbled_at := some (clock i).truncMicros,
          secret_code := some m.SecretCode, entries := some m.Entries } ∧
      (∃ rows, pgQuery ⟨some [seedRow m], perf2⟩ selectJsonbSql = .ok rows ∧
        runTest bits p rows (fun _ => [.whole]) = .ok ([m], printDots p [m])) ∧
      (∃ rows, pgQuery ⟨some [seedRow m], perf2⟩ selectNormalSql = .ok rows ∧
        runTest bits p rows allFields = .ok ([mT], printDots p [mT])) ∧
      (mT.ID = m.ID ∧ mT.Name = m.Name ∧ mT.Status = m.Status ∧ mT.Num = m.Num ∧
        mT.Num2 = m.Num2 ∧ mT.SecretCode = m.SecretCode ∧ mT.Entries = m.Entries) ∧
      (m.LastUpdatedAt = some (clock i) ∧ m.LastModifiedAt = some (clock i) ∧
        m.UpdatedAt = some (clock i) ∧ m.CreatedAt = some (clock i) ∧
        m.JumbledAt = some (clock i)) ∧
      (mT.LastUpdatedAt = some (clock i).truncMicros ∧
        mT.LastModifiedAt = some (clock i).truncMicros ∧
        mT.UpdatedAt = some (clock i).truncMicros ∧
        mT.CreatedAt = some (clock i).truncMicros ∧
        mT.JumbledAt = some (clock i).truncMicros) := by
  refine ⟨_, _, rfl, rfl, ?_, rfl, unmarshal_marshal_createModel bits hb _ i (by omega), ?_,
    seedRow_createModel bits (clock i) i,
    document_read_of_seedRow bits hb (clock i) i (by omega) perf2 p,
    typed_read_of_seedRow bits hb (clock i) i (by omega) perf2 p,
    ⟨rfl, rfl, rfl, rfl, rfl, rfl, rfl⟩, ⟨rfl, rfl, rfl, rfl, rfl⟩, ⟨rfl, rfl, rfl, rfl, rfl⟩⟩
  · unfold main
    rw [(seed_frame bits 2000000 db faults clock).2.2]
    exact getElem?_map_range _ 2000000 i hi
  · intro d rows hd
    exact pgExec_seed_createModel bits hb (clock i) i (by omega) d rows hd

/-- Witness for C5 on a 64-bit platform at index 42, the clock showing 1234
nanoseconds: what is sent, what is stored in an empty table, and the instant in
the document (1234) and in the typed column (1000). -/
theorem seed_insert_binds_one_record_witness :
    ∃ m mT : Model, m = createModel 64 ⟨1234⟩ (42 : Nat) ∧
      (final (main 64 (freshProc ⟨some [], none⟩ none (fun _ => false)
          (fun _ => ⟨1234⟩)))).sent[42]? = some (seedStmt m) ∧
      pgExec ⟨some [], none⟩ (seedStmt m) = .ok ⟨some ([] ++ [seedRow m]), none⟩ ∧
      (∃ rows, pgQuery ⟨some [seedRow m], none⟩ selectJsonbSql = .ok rows ∧
        runTest 64 (freshProc ⟨some [], none⟩ none (fun _ => false) (fun _ => ⟨1234⟩)) rows
            (fun _ => [.whole])
          = .ok ([m], printDots
              (freshProc ⟨some [], none⟩ none (fun _ => false) (fun _ => ⟨1234⟩)) [m])) ∧
      (∃ rows, pgQuery ⟨some [seedRow m], none⟩ selectNormalSql = .ok rows ∧
        runTest 64 (freshProc ⟨some [], none⟩ none (fun _ => false) (fun _ => ⟨1234⟩)) rows
            allFields
          = .ok ([mT], printDots
              (freshProc ⟨some [], none⟩ none (fun _ => false) (fun _ => ⟨1234⟩)) [mT])) ∧
      m.LastUpdatedAt = some ⟨1234⟩ ∧ mT.LastUpdatedAt = some ⟨1000⟩ := by
  obtain ⟨m, mT, h1, h2, h3, -, -, h6, -, h8, h9, -, h11, h12⟩ :=
    seed_insert_binds_one_record 64 (by decide) ⟨some [], none⟩ (fun _ => false)
      (fun _ => ⟨1234⟩) 42 (by decide) none
      (freshProc ⟨some [], none⟩ none (fun _ => false) (fun _ => ⟨1234⟩))
  exact ⟨m, mT, h1, h3, h6 ⟨some [], none⟩ [] rfl, h8, h9, h11.1, h12.1⟩

/-- C5 (counterexample): on a 64-bit platform with the clock showing 1
nanosecond, the row that the seeder stores for index 0 holds the instant 1 in
its document and the instant 0 in its typed column `last_updated_at`; the
document read path decodes `LastUpdatedAt = 1` and the typed read path decodes
`LastUpdatedAt = 0`: the two representations of the seeded row do not agree on
that field. -/
theorem seeded_row_timestamps_counterexample :
    pgExec ⟨some [], none⟩ (seedStmt (createModel 64 ⟨1⟩ 0))
      = .ok ⟨some [seedRow (createModel 64 ⟨1⟩ 0)], none⟩ ∧
    ((seedRow (createModel 64 ⟨1⟩ 0)).j.bind (fun d => d.get "last_updated_at"))
      = some (.ts ⟨1⟩) ∧
    (seedRow (createModel 64 ⟨1⟩ 0)).last_updated_at = some ⟨0⟩ ∧
    pgQuery ⟨some [seedRow (createModel 64 ⟨1⟩ 0)], none⟩ selectJsonbSql
      = .ok ⟨[[.jsonb (marshal (createModel 64 ⟨1⟩ 0))]], none⟩ ∧
    (runTest 64 (freshProc ⟨some [], none⟩ none (fun _ => false) (fun _ => ⟨1⟩))
        ⟨[[.jsonb (marshal (createModel 64 ⟨1⟩ 0))]], none⟩
        (fun _ => [.whole])).toOption.map (fun r => r.1.map (fun m => m.LastUpdatedAt))
      = some [some ⟨1⟩] ∧
    (match pgQuery ⟨some [seedRow (createModel 64 ⟨1⟩ 0)], none⟩ selectNormalSql with
     | .ok rows =>
       (runTest 64 (freshProc ⟨some [], none⟩ none (fun _ => false) (fun _ => ⟨1⟩))
          rows allFields).toOption.map (fun r => r.1.map (fun m => m.LastUpdatedAt))
     | .error _ => none)
      = some [some ⟨0⟩] ∧
    (some (⟨1⟩ : Time) ≠ some ⟨0⟩) := by
  refine ⟨rfl, rfl, rfl, rfl, rfl, rfl, by decide⟩

/-! ## The row decoder -/

theorem printDots_cons (p : Proc) (m : Model) (ms : List Model) :
    printDots p (m :: ms) = printDots (if m.ID % 100000 = 0 then p.print "." else p) ms := rfl

/-- The loop of `runTest` over rows that all scan: every row gives one model,
appended in row order. -/
theorem runTestLoop_ok (bits : Nat) (f : fieldsFunc) (rows : List RawRow) (ms : List Model)
    (h : List.Forall₂ (fun r m => Scan bits r (f Model.zero) Model.zero = .ok m) rows ms) :
    ∀ (acc : List Model) (p : Proc),
      runTestLoop bits f rows acc p = .ok (acc ++ ms, printDots p ms) := by
  induction h with
  | nil => intro acc p; simp [runTestLoop, printDots]
  | cons hr _ ih =>
    intro acc p
    simp only [runTestLoop, hr]
    rw [ih, printDots_cons]
    simp [List.append_assoc]

/-- The loop of `runTest` stops at the first row that does not scan. -/
theorem runTestLoop_error (bits : Nat) (f : fieldsFunc) (pre : List RawRow) (ms : List Model)
    (h : List.Forall₂ (fun r m => Scan bits r (f Model.zero) Model.zero = .ok m) pre ms)
    (bad : RawRow) (post : List RawRow) (e : String)
    (hbad : Scan bits bad (f Model.zero) Model.zero = .error e) :
    ∀ (acc : List Model) (p : Proc),
      runTestLoop bits f (pre ++ bad :: post) acc p = .error (logFatal (printDots p ms) e) := by
  induction h with
  | nil => intro acc p; simp [runTestLoop, hbad, printDots]
  | cons hr _ ih =>
    intro acc p
    rw [List.cons_append]
    simp only [runTestLoop, hr]
    rw [ih, printDots_cons]

/-- C7: `runTest` decodes the rows in cursor order, each into a fresh zero-valued
`Model`. When the rows `pre` all scan (the row `r` giving the model `m`): with no
cursor error the run completes having retained exactly those models, one per row
in row order; with a cursor error after the iteration the run terminates with
status 1; and when the row `bad` that follows `pre` does not scan, the run
terminates with status 1 at that row, whatever rows `post` come after it. -/
theorem runTest_decodes_in_order_or_halts (bits : Nat) (p : Proc) (f : fieldsFunc)
    (pre : List RawRow) (ms : List Model)
    (h : List.Forall₂ (fun r m => Scan bits r (f Model.zero) Model.zero = .ok m) pre ms) :
    (runTest bits p ⟨pre, none⟩ f = .ok (ms, printDots p ms) ∧ ms.length = pre.length) ∧
    (∀ e, runTest bits p ⟨pre, some e⟩ f = .error (logFatal (printDots p ms) e)) ∧
    (∀ bad post fe e, Scan bits bad (f Model.zero) Model.zero = .error e →
      runTest bits p ⟨pre ++ bad :: post, fe⟩ f = .error (logFatal (printDots p ms) e)) ∧
    (∀ e, (logFatal (printDots p ms) e).code = 1 ∧
      (logFatal (printDots p ms) e).proc.stderr = p.stderr ++ [e] ∧
      (logFatal (printDots p ms) e).proc.db = p.db) := by
  have hdots : ∀ (ms : List Model) (p : Proc),
      (printDots p ms).stderr = p.stderr ∧ (printDots p ms).db = p.db := by
    intro ms
    induction ms with
    | nil => intro p; exact ⟨rfl, rfl⟩
    | cons m ms ih =>
      intro p
      rw [printDots_cons]
      obtain ⟨h1, h2⟩ := ih (if m.ID % 100000 = 0 then p.print "." else p)
      rw [h1, h2]
      by_cases hm : m.ID % 100000 = 0 <;> simp [hm, Proc.print]
  refine ⟨⟨?_, h.length_eq.symm⟩, ?_, ?_, ?_⟩
  · simp [runTest, runTestLoop_ok bits f pre ms h]
  · intro e
    simp [runTest, runTestLoop_ok bits f pre ms h]
  · intro bad post fe e hbad
    simp [runTest, runTestLoop_error bits f pre ms h bad post e hbad]
  · intro e
    refine ⟨rfl, ?_, ?_⟩
    · simp [logFatal, (hdots ms p).1]
    · simp [logFatal, (hdots ms p).2]

/-- Witness for C7: two rows of one integer
scanned into `&m.ID`, then a cursor error, then a NULL third row. -/
theorem runTest_decodes_in_order_or_halts_witness :
    (runTest 64 (freshProc ⟨none, none⟩ none (fun _ => false) (fun _ => ⟨0⟩))
        ⟨[[.int 5], [.int 100000]], none⟩ (fun _ => [.ID])
      = .ok ([{ Model.zero with ID := 5 }, { Model.zero with ID := 100000 }],
          printDots (freshProc ⟨none, none⟩ none (fun _ => false) (fun _ => ⟨0⟩))
            [{ Model.zero with ID := 5 }, { Model.zero with ID := 100000 }]) ∧
      [{ Model.zero with ID := 5 }, { Model.zero with ID := 100000 }].length
        = [[SqlVal.int 5], [SqlVal.int 100000]].length) ∧
    runTest 64 (freshProc ⟨none, none⟩ none (fun _ => false) (fun _ => ⟨0⟩))
        ⟨[[.int 5], [.int 100000]], some "unexpected EOF"⟩ (fun _ => [.ID])
      = .error (logFatal
          (printDots (freshProc ⟨none, none⟩ none (fun _ => false) (fun _ => ⟨0⟩))
            [{ Model.zero with ID := 5 }, { Model.zero with ID := 100000 }]) "unexpected EOF") ∧
    runTest 64 (freshProc ⟨none, none⟩ none (fun _ => false) (fun _ => ⟨0⟩))
        ⟨[[.int 5], [.int 100000]] ++ [.null] :: [[.int 7]], none⟩ (fun _ => [.ID])
      = .error (logFatal
          (printDots (freshProc ⟨none, none⟩ none (fun _ => false) (fun _ => ⟨0⟩))
            [{ Model.zero with ID := 5 }, { Model.zero with ID := 100000 }])
          "cannot assign NULL to *int") :=
  have h : List.Forall₂
      (fun r m => Scan 64 r ((fun _ => [Dest.ID]) Model.zero) Model.zero = .ok m)
      [[SqlVal.int 5], [SqlVal.int 100000]]
      [{ Model.zero with ID := 5 }, { Model.zero with ID := 100000 }] :=
    List.Forall₂.cons rfl (List.Forall₂.cons rfl List.Forall₂.nil)
  ⟨(runTest_decodes_in_order_or_halts 64 _ (fun _ => [.ID]) _ _ h).1,
   (runTest_decodes_in_order_or_halts 64 _ (fun _ => [.ID]) _ _ h).2.1 "unexpected EOF",
   (runTest_decodes_in_order_or_halts 64 _ (fun _ => [.ID]) _ _ h).2.2.1
      [.null] [[.int 7]] none "cannot assign NULL to *int" rfl⟩

/-! ## The update statements -/

theorem kvGet_kvSet_same (key : String) (v : JVal) (kvs : List (String × JVal)) :
    kvGet key (kvSet key v kvs) = some v := by
  induction kvs with
  | nil => simp [kvSet, kvGet]
  | cons kv rest ih =>
    obtain ⟨k, w⟩ := kv
    by_cases h : k = key <;> simp [kvSet, kvGet, h, ih]

theorem kvGet_kvSet_other (key other : String) (v : JVal) (kvs : List (String × JVal))
    (h : other ≠ key) : kvGet other (kvSet key v kvs) = kvGet other kvs := by
  induction kvs with
  | nil => simp [kvSet, kvGet, Ne.symm h]
  | cons kv rest ih =>
    obtain ⟨k, w⟩ := kv
    by_cases hk : k = key
    · subst hk
      simp [kvSet, kvGet, Ne.symm h]
    · by_cases ho : k = other
      · subst ho
        simp [kvSet, kvGet, hk]
      · simp [kvSet, kvGet, hk, ho, ih]

theorem fmtD_natCast (n : Nat) : fmtD (n : Int) = Nat.repr n := by
  rw [fmtD_of_nonneg _ (Int.ofNat_nonneg n)]
  simp

/-- The rows after an update whose assignments succeed on every matching row. -/
theorem updateRows_map (args : List Arg) (sets : List (Col × Expr)) (key : SqlVal)
    (g : Row → Row) (rows : List Row)
    (h : ∀ r ∈ rows, (if matchesId key r then applySets args r sets r else .ok r) = .ok (g r)) :
    updateRows args sets key rows = .ok (rows.map g) := by
  induction rows with
  | nil => rfl
  | cons r rs ih =>
    have hr := h r (List.mem_cons_self r rs)
    have hrs := ih (fun x hx => h x (List.mem_cons_of_mem r hx))
    simp only [updateRows, hr, hrs, List.map_cons]

theorem matchesId_int (k : Int) (r : Row) : matchesId (.int k) r = decide (r.id = some k) := by
  cases hr : r.id <;> simp [matchesId, hr]


theorem pgExec_update (db : DB) (t : Table) (sets : List (Col × Expr)) (w : Expr)
    (args : List Arg) :
    pgExec db (.update t sets w args) =
      (match db.table t with
       | none => .error "relation does not exist"
       | some rows =>
         match eval args Row.null w with
         | .error e => .error e
         | .ok key =>
           match asInt4 key with
           | .error e => .error e
           | .ok _ =>
             match updateRows args sets key rows with
             | .error e => .error e
             | .ok rows1 => .ok (db.setTable t rows1)) := rfl

/-- An update of `perf` whose key is an `integer` and whose assignments succeed. -/
theorem pgExec_update_perf (db : DB) (sets : List (Col × Expr)) (w : Expr) (args : List Arg)
    (rows rows1 : List Row) (k : Int) (hp : db.perf = some rows)
    (hw : eval args Row.null w = .ok (.int k)) (hk : fitsInt4 k = true)
    (hrows : updateRows args sets (.int k) rows = .ok rows1) :
    pgExec db (.update .perf sets w args) = .ok { db with perf := some rows1 } := by
  have ht : db.table .perf = some rows := hp
  rw [pgExec_update, ht]
  simp only [hw, asInt4, hk, if_true, hrows, DB.setTable]

/-- The typed update on an existing table. -/
theorem pgExec_updateNormal (n : Nat) (hn : n ≤ 2147483646) (db : DB) (rows : List Row)
    (hp : db.perf = some rows) :
    pgExec db (updateNormalStmt n) = .ok { db with perf := some (rows.map (fun r =>
      if r.id = some ((n : Int) + 1)
      then { r with name := some ("UpdateName:" ++ Nat.repr n), num := some (n : Int) }
      else r)) } := by
  have h1 : fitsInt4 ((n : Int) + 1) = true := fitsInt4_of_range _ (by omega) (by omega)
  have h0 : fitsInt4 (n : Int) = true := fitsInt4_of_range _ (by omega) (by omega)
  refine pgExec_update_perf db _ _ _ rows _ ((n : Int) + 1) hp rfl h1 ?_
  refine updateRows_map _ _ _ _ rows ?_
  intro r _
  rw [matchesId_int]
  by_cases hid : r.id = some ((n : Int) + 1)
  · simp [hid, applySets, eval, Arg.toSql, Row.set, asVarchar, asInt4, h0, Except.map,
      fmtD_natCast]
  · simp [hid]

/-- The document update on an existing table in which no row with the id
`n + 1` holds a scalar document. -/
theorem pgExec_updateJsonb (n : Nat) (hn : n ≤ 2147483646) (db : DB) (rows : List Row)
    (hp : db.perf = some rows)
    (hdoc : ∀ r ∈ rows, r.id = some ((n : Int) + 1) → holdsScalar r = false) :
    pgExec db (updateJsonbStmt n) = .ok { db with perf := some (rows.map (fun r =>
      if r.id = some ((n : Int) + 1) then { r with j := r.j.map (patchDoc n) } else r)) } := by
  have h1 : fitsInt4 ((n : Int) + 1) = true := fitsInt4_of_range _ (by omega) (by omega)
  refine pgExec_update_perf db _ _ _ rows _ ((n : Int) + 1) hp rfl h1 ?_
  refine updateRows_map _ _ _ _ rows ?_
  intro r hr
  rw [matchesId_int]
  by_cases hid : r.id = some ((n : Int) + 1)
  · have hd := hdoc r hr hid
    cases hj : r.j with
    | none =>
      simp [hid, applySets, eval, Row.get, hj, Row.set, asJsonb, Except.map]
    | some d =>
      cases d with
      | scalar v => simp [holdsScalar, hj] at hd
      | obj kvs =>
        simp [hid, applySets, eval, Row.get, hj, Arg.toSql, Row.set, asJsonb,
          asJsonScalar, Except.map, patchDoc]
  · simp [hid]

/-- C6 (as amended): on an existing table `perf` and for an index `n` with
`n + 1` in the range of `integer`, the typed update sets the columns `name` and
`num` of every row whose `id` is `n + 1` to "UpdateName:n" and `n`; the document
update, when no such row holds a scalar document
(one that is neither NULL nor an object), sets the members `name` and
`num` of the document of every such row and leaves a NULL document NULL. In both
variants every other column of those rows, every other member of the document,
every row with another `id` and the table `perf2` are unchanged. -/
theorem update_isolation (n : Nat) (hn : n ≤ 2147483646) (db : DB) (rows : List Row)
    (hp : db.perf = some rows) :
    pgExec db (updateNormalStmt n) = .ok { db with perf := some (rows.map (fun r =>
      if r.id = some ((n : Int) + 1)
      then { r with name := some ("UpdateName:" ++ Nat.repr n), num := some (n : Int) }
      else r)) } ∧
    ((∀ r ∈ rows, r.id = some ((n : Int) + 1) → holdsScalar r = false) →
      pgExec db (updateJsonbStmt n) = .ok { db with perf := some (rows.map (fun r =>
        if r.id = some ((n : Int) + 1) then { r with j := r.j.map (patchDoc n) } else r)) }) ∧
    (∀ kvs : List (String × JVal),
      (patchDoc n (.obj kvs)).get "name" = some (.str ("UpdateName:" ++ Nat.repr n)) ∧
      (patchDoc n (.obj kvs)).get "num" = some (.num (n : Int)) ∧
      ∀ key : String, key ≠ "name" → key ≠ "num" →
        (patchDoc n (.obj kvs)).get key = (Json.obj kvs).get key) := by
  refine ⟨pgExec_updateNormal n hn db rows hp, pgExec_updateJsonb n hn db rows hp, ?_⟩
  intro kvs
  refine ⟨?_, ?_, ?_⟩
  · simp only [patchDoc, Json.get]
    rw [kvGet_kvSet_other _ _ _ _ (by decide), kvGet_kvSet_same, fmtD_natCast]
  · simp only [patchDoc, Json.get]
    rw [kvGet_kvSet_same]
  · intro key h1 h2
    simp only [patchDoc, Json.get]
    rw [kvGet_kvSet_other _ _ _ _ h2, kvGet_kvSet_other _ _ _ _ h1]

/-- Witness for C6: index 0 on a table with the rows of ids 1 and 2,
the first with a document, the second without. -/
theorem update_isolation_witness :
    pgExec ⟨some [{ Row.null with j := some (.obj [("id", .num 1), ("name", .str "MyName:1")]),
                                   id := some 1, name := some "MyName:1" },
                  { Row.null with id := some 2 }], none⟩ (updateNormalStmt 0)
      = .ok ⟨some [{ Row.null with j := some (.obj [("id", .num 1), ("name", .str "MyName:1")]),
                                   id := some 1, name := some "UpdateName:0", num := some 0 },
                   { Row.null with id := some 2 }], none⟩ ∧
    pgExec ⟨some [{ Row.null with j := some (.obj [("id", .num 1), ("name", .str "MyName:1")]),
                                   id := some 1, name := some "MyName:1" },
                  { Row.null with id := some 2 }], none⟩ (updateJsonbStmt 0)
      = .ok ⟨some [{ Row.null with
                       j := some (.obj [("id", .num 1), ("name", .str "UpdateName:0"),
                                        ("num", .num 0)]),
                       id := some 1, name := some "MyName:1" },
                   { Row.null with id := some 2 }], none⟩ :=
  have h := update_isolation 0 (by decide)
    ⟨some [{ Row.null with j := some (.obj [("id", .num 1), ("name", .str "MyName:1")]),
                           id := some 1, name := some "MyName:1" },
           { Row.null with id := some 2 }], none⟩ _ rfl
  ⟨h.1, h.2.1 (by decide)⟩

/-- C6 (counterexample): a table state in which the row with `id = 1` has no
document (as the typed insert leaves it): the document update for `n = 0`
succeeds and changes nothing, so that row has the name "UpdateName:0" neither in
a document nor in its typed column; and on a row that holds both forms the
document update leaves the typed `name` and `num` as they were. -/
theorem update_isolation_counterexample :
    pgExec ⟨some [{ Row.null with id := some 1, name := some "MyName:1", num := some 8 }], none⟩
        (updateJsonbStmt 0)
      = .ok ⟨some [{ Row.null with id := some 1, name := some "MyName:1", num := some 8 }],
             none⟩ ∧
    pgExec ⟨some [seedRow (createModel 64 ⟨0⟩ 1)], none⟩ (updateJsonbStmt 0)
      = .ok ⟨some [{ seedRow (createModel 64 ⟨0⟩ 1) with
                      j := some (patchDoc 0 (marshal (createModel 64 ⟨0⟩ 1))) }], none⟩ ∧
    (seedRow (createModel 64 ⟨0⟩ 1)).name = some "MyName:1" ∧
    (seedRow (createModel 64 ⟨0⟩ 1)).num = some 8 ∧
    (patchDoc 0 (marshal (createModel 64 ⟨0⟩ 1))).get "name" = some (.str "UpdateName:0") := by
  refine ⟨rfl, rfl, rfl, rfl, rfl⟩

/-! ## The benchmark scenarios -/

/-- A property of the state that every iteration keeps, from whichever state,
holds at the end of the loop, terminated or not. -/
theorem forRange_inv (I : Proc → Prop) (body : Nat → Proc → Except Halt Proc)
    (hbody : ∀ i p, I p → I (final (body i p))) :
    ∀ (k i : Nat) (p : Proc), I p → I (final (forRange body k i p)) := by
  intro k
  induction k with
  | zero => intro i p hp; exact hp
  | succ k ih =>
    intro i p hp
    rw [forRange_succ]
    have h := hbody i p hp
    cases hb : body i p with
    | error e => rw [hb] at h; exact h
    | ok p1 => rw [hb] at h; exact ih (i + 1) p1 h

/-- A statement leaves the table that it does not name as it was. -/
theorem pgExec_other_table (db db1 : DB) (s : Stmt) (h : pgExec db s = .ok db1) :
    (s.target = .perf2 → db1.perf = db.perf) ∧ (s.target = .perf → db1.perf2 = db.perf2) := by
  cases s with
  | resetPerf2 =>
    simp only [pgExec, Except.ok.injEq] at h
    subst h
    simp [Stmt.target]
  | insert t cols args =>
    simp only [pgExec] at h
    cases ht : db.table t with
    | none => simp [ht] at h
    | some rows =>
      cases hb : buildRow cols args Row.null with
      | error e => simp [ht, hb] at h
      | ok r =>
        simp only [ht, hb, Except.ok.injEq] at h
        subst h
        cases t <;> simp [Stmt.target, DB.setTable]
  | update t sets w args =>
    rw [pgExec_update] at h
    cases ht : db.table t with
    | none => simp [ht] at h
    | some rows =>
      cases hw : eval args Row.null w with
      | error e => simp [ht, hw] at h
      | ok key =>
        cases hk : asInt4 key with
        | error e => simp [ht, hw, hk] at h
        | ok k =>
          cases hu : updateRows args sets key rows with
          | error e => simp [ht, hw, hk, hu] at h
          | ok rows1 =>
            simp only [ht, hw, hk, hu, Except.ok.injEq] at h
            subst h
            cases t <;> simp [Stmt.target, DB.setTable]
  | select exprs t =>
    simp only [pgExec] at h
    cases ht : db.table t with
    | none => simp [ht] at h
    | some rows =>
      simp only [ht, Except.ok.injEq] at h
      subst h
      simp

/-- What `conn.Exec` does to the table that the statement does not name: nothing. -/
theorem Exec_other_table (p : Proc) (s : Stmt) :
    (s.target = .perf2 → (p.Exec s).2.db.perf = p.db.perf) ∧
    (s.target = .perf → (p.Exec s).2.db.perf2 = p.db.perf2) := by
  unfold Proc.Exec
  by_cases hf : p.faults p.sent.length = true
  · simp [hf]
  · cases hx : pgExec p.db s with
    | error e => simp [hf, hx]
    | ok db1 =>
      have h := pgExec_other_table p.db db1 s hx
      simpa [hf, hx] using h

/-- A statement whose error is fatal: what is sent and what is left unchanged. -/
theorem execOrFatal_frame (p : Proc) (s : Stmt) :
    (final (execOrFatal p s)).sent = p.sent ++ [s] ∧
    (s.target = .perf2 → (final (execOrFatal p s)).db.perf = p.db.perf) ∧
    (s.target = .perf → (final (execOrFatal p s)).db.perf2 = p.db.perf2) := by
  have h1 := (Exec_frame p s).1
  have h2 := Exec_other_table p s
  unfold execOrFatal
  cases hx : p.Exec s with
  | mk err q =>
    rw [hx] at h1 h2
    cases err <;> simpa [final, logFatal] using ⟨h1, h2⟩

/-- The loop of `runTest` sends nothing and leaves the database as it was. -/
theorem runTestLoop_frame (bits : Nat) (f : fieldsFunc) (rows : List RawRow) :
    ∀ (acc : List Model) (p : Proc),
      (match runTestLoop bits f rows acc p with
       | .ok (_, q) => q.sent = p.sent ∧ q.db = p.db
       | .error h => h.proc.sent = p.sent ∧ h.proc.db = p.db) := by
  induction rows with
  | nil => intro acc p; simp [runTestLoop]
  | cons r rs ih =>
    intro acc p
    simp only [runTestLoop]
    cases hs : Scan bits r (f Model.zero) Model.zero with
    | error e => simp [logFatal]
    | ok m =>
      have h := ih (acc ++ [m]) (if m.ID % 100000 = 0 then p.print "." else p)
      by_cases hm : m.ID % 100000 = 0 <;> simpa [hm, Proc.print] using h

/-- The function `runTest` sends nothing and leaves the database as it was. -/
theorem runTest_frame (bits : Nat) (p : Proc) (rows : Rows) (f : fieldsFunc) :
    (match runTest bits p rows f with
     | .ok (_, q) => q.sent = p.sent ∧ q.db = p.db
     | .error h => h.proc.sent = p.sent ∧ h.proc.db = p.db) := by
  have h := runTestLoop_frame bits f rows.pending [] p
  unfold runTest
  cases hr : runTestLoop bits f rows.pending [] p with
  | error e => rw [hr] at h; simpa using h
  | ok res =>
    obtain ⟨ms, q⟩ := res
    rw [hr] at h
    cases he : rows.finalErr <;> simpa [logFatal, he] using h

/-- The function `query` sends its statement and leaves the database as it was. -/
theorem query_frame (p : Proc) (sql : Stmt) :
    (match query p sql with
     | .ok (_, q) => q.sent = p.sent ++ [sql] ∧ q.db = p.db
     | .error h => h.proc.sent = p.sent ++ [sql] ∧ h.proc.db = p.db) := by
  unfold query Proc.Query
  by_cases hf : p.faults p.sent.length = true
  · simp [hf, logFatal]
  · cases hq : pgQuery p.db sql <;> simp [hf, hq, logFatal]

/-- One iteration of a read benchmark sends its query and leaves the database as it was. -/
theorem readIteration_frame (bits : Nat) (sql : Stmt) (f : fieldsFunc) (p : Proc) :
    (final (readIteration bits sql f p)).sent = p.sent ++ [sql] ∧
    (final (readIteration bits sql f p)).db = p.db := by
  have hq := query_frame p sql
  unfold readIteration
  cases hx : query p sql with
  | error e => rw [hx] at hq; simpa [final] using hq
  | ok res =>
    obtain ⟨rows, q1⟩ := res
    rw [hx] at hq
    have hr := runTest_frame bits q1 rows f
    simp only at hq
    cases hy : runTest bits q1 rows f with
    | error e =>
      rw [hy] at hr
      simp only at hr
      simp only [hy, final]
      rw [hr.1, hr.2, hq.1, hq.2]
      exact ⟨rfl, rfl⟩
    | ok res2 =>
      obtain ⟨ms, q2⟩ := res2
      rw [hy] at hr
      simp only at hr
      simp only [hy, final]
      rw [hr.1, hr.2, hq.1, hq.2]
      exact ⟨rfl, rfl⟩

/-- A read benchmark on a process that could connect sends only its query and
leaves the database as it was. -/
theorem readBenchmark_frame (bits : Nat) (sql : Stmt) (f : fieldsFunc) (count : Nat) (p : Proc)
    (hc : p.connErr = none) :
    ∃ l, (final (readBenchmark bits sql f count p)).sent = p.sent ++ l ∧
      (∀ s ∈ l, s = sql) ∧ (final (readBenchmark bits sql f count p)).db = p.db := by
  have h := forRange_inv
    (fun q => ∃ l, q.sent = p.sent ++ l ∧ (∀ s ∈ l, s = sql) ∧ q.db = p.db)
    (fun _ q => readIteration bits sql f q)
    (by
      intro i q hq
      obtain ⟨l, h1, h2, h3⟩ := hq
      obtain ⟨f1, f2⟩ := readIteration_frame bits sql f q
      refine ⟨l ++ [sql], ?_, ?_, ?_⟩
      · rw [f1, h1, List.append_assoc]
      · intro s hs
        rcases List.mem_append.mp hs with hs | hs
        · exact h2 s hs
        · simpa using hs
      · rw [f2, h3])
    count 0 p ⟨[], by simp, by simp, rfl⟩
  unfold readBenchmark getConn
  simp only [hc]
  cases hr : forRange (fun _ q => readIteration bits sql f q) count 0 p with
  | error e => rw [hr] at h; simpa [final] using h
  | ok q => rw [hr] at h; simpa [final, Proc.print] using h

/-- A write benchmark loop whose statements all name the table `t`: what it sends,
and the other table is left as it was. -/
theorem writeLoop_frame (t : Table) (body : Nat → Proc → Except Halt Proc)
    (hbody : ∀ i q, ∃ s, s.target = t ∧ (final (body i q)).sent = q.sent ++ [s] ∧
      (t = .perf2 → (final (body i q)).db.perf = q.db.perf) ∧
      (t = .perf → (final (body i q)).db.perf2 = q.db.perf2))
    (count : Nat) (p : Proc) :
    ∃ l, (final (forRange body count 0 p)).sent = p.sent ++ l ∧ (∀ s ∈ l, s.target = t) ∧
      (t = .perf2 → (final (forRange body count 0 p)).db.perf = p.db.perf) ∧
      (t = .perf → (final (forRange body count 0 p)).db.perf2 = p.db.perf2) := by
  refine forRange_inv
    (fun q => ∃ l, q.sent = p.sent ++ l ∧ (∀ s ∈ l, s.target = t) ∧
      (t = .perf2 → q.db.perf = p.db.perf) ∧ (t = .perf → q.db.perf2 = p.db.perf2))
    body ?_ count 0 p ⟨[], by simp, by simp, fun _ => rfl, fun _ => rfl⟩
  intro i q hq
  obtain ⟨l, h1, h2, h3, h4⟩ := hq
  obtain ⟨s, hs, f1, f2, f3⟩ := hbody i q
  refine ⟨l ++ [s], ?_, ?_, ?_, ?_⟩
  · rw [f1, h1, List.append_assoc]
  · intro x hx
    rcases List.mem_append.mp hx with hx | hx
    · exact h2 x hx
    · have : x = s := by simpa using hx
      rw [this]; exact hs
  · intro ht; rw [f2 ht, h3 ht]
  · intro ht; rw [f3 ht, h4 ht]

/-- The function `resetInsertTable` sends the reset and leaves `perf` as it was. -/
theorem resetInsertTable_frame (p : Proc) :
    (resetInsertTable p).sent = p.sent ++ [.resetPerf2] ∧
    (resetInsertTable p).db.perf = p.db.perf := by
  unfold resetInsertTable
  exact ⟨(Exec_frame p .resetPerf2).1, (Exec_other_table p .resetPerf2).1 rfl⟩

/-- An insert benchmark on a process that could connect: the reset first, then
only statements on `perf2`; `perf` is left as it was. -/
theorem insertBenchmark_frame (mk : Time → Nat → Stmt) (hmk : ∀ t n, (mk t n).target = .perf2)
    (count : Nat) (p : Proc) :
    ∃ l, (final (forRange (fun n q => execOrFatal q.timeNow.2 (mk q.timeNow.1 n)) count 0
            (resetInsertTable p))).sent = p.sent ++ Stmt.resetPerf2 :: l ∧
      (∀ s ∈ l, s.target = .perf2) ∧
      (final (forRange (fun n q => execOrFatal q.timeNow.2 (mk q.timeNow.1 n)) count 0
            (resetInsertTable p))).db.perf = p.db.perf := by
  obtain ⟨l, h1, h2, h3, -⟩ := writeLoop_frame .perf2
    (fun n q => execOrFatal q.timeNow.2 (mk q.timeNow.1 n))
    (by
      intro i q
      obtain ⟨f1, f2, f3⟩ := execOrFatal_frame q.timeNow.2 (mk q.timeNow.1 i)
      exact ⟨_, hmk _ _, f1, fun _ => f2 (hmk _ _), fun h => (by cases h)⟩)
    count (resetInsertTable p)
  obtain ⟨r1, r2⟩ := resetInsertTable_frame p
  refine ⟨l, ?_, h2, ?_⟩
  · rw [h1, r1, List.append_assoc]; rfl
  · rw [h3 rfl, r2]

/-- An update benchmark on a process that could connect: only statements on
`perf`, no reset; `perf2` is left as it was. -/
theorem updateBenchmark_frame (mk : Nat → Stmt) (hmk : ∀ n, (mk n).target = .perf)
    (count : Nat) (p : Proc) :
    ∃ l, (final (forRange (fun n q => execOrFatal q (mk n)) count 0 p)).sent = p.sent ++ l ∧
      (∀ s ∈ l, s.target = .perf) ∧
      (final (forRange (fun n q => execOrFatal q (mk n)) count 0 p)).db.perf2 = p.db.perf2 := by
  obtain ⟨l, h1, h2, -, h4⟩ := writeLoop_frame .perf
    (fun n q => execOrFatal q (mk n))
    (by
      intro i q
      obtain ⟨f1, f2, f3⟩ := execOrFatal_frame q (mk i)
      exact ⟨_, hmk _, f1, fun h => (by cases h), fun _ => f3 (hmk _)⟩)
    count p
  exact ⟨l, h1, h2, h4 rfl⟩

/-- C8 (as amended): on a process that could connect, each insert benchmark
sends the reset of `perf2` first and after it only statements on `perf2`, and
leaves the seeded table `perf` as it was; each update benchmark sends no reset,
only statements on the seeded table `perf`, and leaves `perf2` as it was; each
read benchmark sends only its query, which reads `perf`, and leaves the
database as it was. -/
theorem benchmark_tables (bits count : Nat) (p : Proc) (hc : p.connErr = none) :
    (∃ l, (final (BenchmarkInsertJson bits count p)).sent = p.sent ++ Stmt.resetPerf2 :: l ∧
      (∀ s ∈ l, s.target = .perf2) ∧
      (final (BenchmarkInsertJson bits count p)).db.perf = p.db.perf) ∧
    (∃ l, (final (BenchmarkInsertNormalColumns bits count p)).sent
        = p.sent ++ Stmt.resetPerf2 :: l ∧
      (∀ s ∈ l, s.target = .perf2) ∧
      (final (BenchmarkInsertNormalColumns bits count p)).db.perf = p.db.perf) ∧
    (∃ l, (final (BenchmarkUpdate2JsonbFields count p)).sent = p.sent ++ l ∧
      (∀ s ∈ l, s.target = .perf) ∧
      (final (BenchmarkUpdate2JsonbFields count p)).db.perf2 = p.db.perf2) ∧
    (∃ l, (final (BenchmarkUpdate2NormalColumns count p)).sent = p.sent ++ l ∧
      (∀ s ∈ l, s.target = .perf) ∧
      (final (BenchmarkUpdate2NormalColumns count p)).db.perf2 = p.db.perf2) ∧
    (∃ l, (final (BenchmarkSelectAndParseJsonb bits count p)).sent = p.sent ++ l ∧
      (∀ s ∈ l, s = selectJsonbSql) ∧
      (final (BenchmarkSelectAndParseJsonb bits count p)).db = p.db) ∧
    (∃ l, (final (BenchmarkSelectAndParseNormalColumns bits count p)).sent = p.sent ++ l ∧
      (∀ s ∈ l, s = selectNormalSql) ∧
      (final (BenchmarkSelectAndParseNormalColumns bits count p)).db = p.db) ∧
    (∃ l, (final (BenchmarkSelectAndParseJsonbColumns bits count p)).sent = p.sent ++ l ∧
      (∀ s ∈ l, s = selectJsonbColumnsSql) ∧
      (final (BenchmarkSelectAndParseJsonbColumns bits count p)).db = p.db) ∧
    (∃ l, (final (BenchmarkSelectAndParseSingleJsonbField bits count p)).sent = p.sent ++ l ∧
      (∀ s ∈ l, s = selectSingleJsonbSql) ∧
      (final (BenchmarkSelectAndParseSingleJsonbField bits count p)).db = p.db) ∧
    (∃ l, (final (BenchmarkSelectAndParseSingleNormalColumn bits count p)).sent = p.sent ++ l ∧
      (∀ s ∈ l, s = selectSingleNormalSql) ∧
      (final (BenchmarkSelectAndParseSingleNormalColumn bits count p)).db = p.db) ∧
    (selectJsonbSql.target = .perf ∧ selectNormalSql.target = .perf ∧
      selectJsonbColumnsSql.target = .perf ∧ selectSingleJsonbSql.target = .perf ∧
      selectSingleNormalSql.target = .perf) := by
  refine ⟨?_, ?_, ?_, ?_, ?_, ?_, ?_, ?_, ?_, ⟨rfl, rfl, rfl, rfl, rfl⟩⟩
  · simp only [BenchmarkInsertJson, getConn, hc]
    exact insertBenchmark_frame (fun t n => insertJsonStmt (createModel bits t (n + 1)))
      (fun _ _ => rfl) count p
  · simp only [BenchmarkInsertNormalColumns, getConn, hc]
    exact insertBenchmark_frame (fun t n => insertNormalStmt (createModel bits t (n + 1)))
      (fun _ _ => rfl) count p
  · simp only [BenchmarkUpdate2JsonbFields, getConn, hc]
    exact updateBenchmark_frame updateJsonbStmt (fun _ => rfl) count p
  · simp only [BenchmarkUpdate2NormalColumns, getConn, hc]
    exact updateBenchmark_frame updateNormalStmt (fun _ => rfl) count p
  · exact readBenchmark_frame bits _ _ count p hc
  · exact readBenchmark_frame bits _ _ count p hc
  · exact readBenchmark_frame bits _ _ count p hc
  · exact readBenchmark_frame bits _ _ count p hc
  · exact readBenchmark_frame bits _ _ count p hc

/-- Witness for C8: two iterations on a database whose two tables
exist and are empty. -/
theorem benchmark_tables_witness :
    (∃ l, (final (BenchmarkInsertJson 64 2
          (freshProc ⟨some [], some []⟩ none (fun _ => false) (fun _ => ⟨0⟩)))).sent
        = (freshProc ⟨some [], some []⟩ none (fun _ => false) (fun _ => ⟨0⟩)).sent
            ++ Stmt.resetPerf2 :: l ∧
      (∀ s ∈ l, s.target = .perf2) ∧
      (final (BenchmarkInsertJson 64 2
          (freshProc ⟨some [], some []⟩ none (fun _ => false) (fun _ => ⟨0⟩)))).db.perf
        = (freshProc ⟨some [], some []⟩ none (fun _ => false) (fun _ => ⟨0⟩)).db.perf) ∧
    (∃ l, (final (BenchmarkUpdate2JsonbFields 2
          (freshProc ⟨some [], some []⟩ none (fun _ => false) (fun _ => ⟨0⟩)))).sent
        = (freshProc ⟨some [], some []⟩ none (fun _ => false) (fun _ => ⟨0⟩)).sent ++ l ∧
      (∀ s ∈ l, s.target = .perf) ∧
      (final (BenchmarkUpdate2JsonbFields 2
          (freshProc ⟨some [], some []⟩ none (fun _ => false) (fun _ => ⟨0⟩)))).db.perf2
        = (freshProc ⟨some [], some []⟩ none (fun _ => false) (fun _ => ⟨0⟩)).db.perf2) :=
  ⟨(benchmark_tables 64 2
      (freshProc ⟨some [], some []⟩ none (fun _ => false) (fun _ => ⟨0⟩)) rfl).1,
   (benchmark_tables 64 2
      (freshProc ⟨some [], some []⟩ none (fun _ => false) (fun _ => ⟨0⟩)) rfl).2.2.1⟩

/-- C8 (counterexample): one iteration of `BenchmarkUpdate2NormalColumns` on a
database whose seeded table holds the row of id 1 and whose throwaway table
holds a stale row: the only statement sent is the update, it names `perf`, no
reset is sent, the seeded table is modified and the throwaway table keeps its
stale row. -/
theorem benchmark_tables_counterexample :
    (final (BenchmarkUpdate2NormalColumns 1
      (freshProc ⟨some [{ Row.null with id := some 1, name := some "MyName:1" }],
                  some [{ Row.null with id := some 7 }]⟩
        none (fun _ => false) (fun _ => ⟨0⟩)))).sent = [updateNormalStmt 0] ∧
    (updateNormalStmt 0).target = .perf ∧
    updateNormalStmt 0 ≠ .resetPerf2 ∧
    (final (BenchmarkUpdate2NormalColumns 1
      (freshProc ⟨some [{ Row.null with id := some 1, name := some "MyName:1" }],
                  some [{ Row.null with id := some 7 }]⟩
        none (fun _ => false) (fun _ => ⟨0⟩)))).db
      = ⟨some [{ Row.null with id := some 1, name := some "UpdateName:0", num := some 0 }],
         some [{ Row.null with id := some 7 }]⟩ ∧
    (⟨some [{ Row.null with id := some 1, name := some "UpdateName:0", num := some 0 }],
         some [{ Row.null with id := some 7 }]⟩ : DB).perf
      ≠ (⟨some [{ Row.null with id := some 1, name := some "MyName:1" }],
                  some [{ Row.null with id := some 7 }]⟩ : DB).perf := by
  refine ⟨rfl, rfl, ?_, rfl, ?_⟩
  · decide
  · decide

/-! ## The typed insert and the hybrid read -/

/-- The record that the hybrid extraction decodes from the document of a
generated record: the timestamps are rounded to microseconds. -/
theorem hybrid_read_of_seedRow (bits : Nat) (hb : 32 ≤ bits) (now : Time) (i : Nat)
    (hi : i ≤ 2147483637) (perf2 : Option (List Row)) (p : Proc) :
    ∃ rows, pgQuery ⟨some [seedRow (createModel bits now i)], perf2⟩ selectJsonbColumnsSql
        = .ok rows ∧
      runTest bits p rows allFields =
        .ok ([{ createModel bits now i with
                  LastUpdatedAt := some now.roundMicros, LastModifiedAt := some now.roundMicros,
                  UpdatedAt := some now.roundMicros, CreatedAt := some now.roundMicros,
                  JumbledAt := some now.roundMicros }],
             printDots p [{ createModel bits now i with
                  LastUpdatedAt := some now.roundMicros, LastModifiedAt := some now.roundMicros,
                  UpdatedAt := some now.roundMicros, CreatedAt := some now.roundMicros,
                  JumbledAt := some now.roundMicros }]) := by
  have h7 : wrapInt bits ((i : Int) + 7) = i + 7 :=
    wrapInt_small bits hb _ (by omega) (by omega)
  have h10 : wrapInt bits ((i : Int) + 10) = i + 10 :=
    wrapInt_small bits hb _ (by omega) (by omega)
  have g0 : fitsInt4 (i : Int) = true := fitsInt4_of_range _ (by omega) (by omega)
  have g7 : fitsInt4 ((i : Int) + 7) = true := fitsInt4_of_range _ (by omega) (by omega)
  have g10 : fitsInt4 ((i : Int) + 10) = true := fitsInt4_of_range _ (by omega) (by omega)
  have f0 := fitsInt_of_int4 bits hb _ g0
  have f7 := fitsInt_of_int4 bits hb _ g7
  have f10 := fitsInt_of_int4 bits hb _ g10
  refine ⟨_, rfl, ?_⟩
  have hrow : evalAll (seedRow (createModel bits now i))
      [.castInt (.arrowText (.col .j) "id"),
           .arrowText (.col .j) "name",
           .arrowText (.col .j) "status",
           .castTs (.castText (.arrowText (.col .j) "last_updated_at")),
           .castTs (.castText (.arrowText (.col .j) "last_modified_at")),
           .castInt (.arrowText (.col .j) "num"),
           .castInt (.arrowText (.col .j) "num2"),
           .castTs (.castText (.arrowText (.col .j) "updated_at")),
           .castTs (.castText (.arrowText (.col .j) "created_at")),
           .castTs (.castText (.arrowText (.col .j) "jumbled_at")),
           .arrowText (.col .j) "secret_code",
           .castInt (.arrowText (.col .j) "entries")]
      = .ok [.int i, .text ("MyName:" ++ fmtD i), .text ("MyStatus:" ++ fmtD i),
             .ts now.roundMicros, .ts now.roundMicros, .int (i + 7), .int (i + 7),
             .ts now.roundMicros, .ts now.roundMicros, .ts now.roundMicros,
             .text ("MyCode:" ++ fmtD i), .int (i + 10)] := by
    simp [evalAll, eval, Row.get, seedRow, marshal, Json.get, kvGet, memberText, createModel,
      jsonOfTime, jsonOfInt, h7, h10, g0, g7, g10]
  have hscan : Scan bits [.int i, .text ("MyName:" ++ fmtD i), .text ("MyStatus:" ++ fmtD i),
             .ts now.roundMicros, .ts now.roundMicros, .int (i + 7), .int (i + 7),
             .ts now.roundMicros, .ts now.roundMicros, .ts now.roundMicros,
             .text ("MyCode:" ++ fmtD i), .int (i + 10)] (allFields Model.zero) Model.zero
      = .ok { createModel bits now i with
                  LastUpdatedAt := some now.roundMicros, LastModifiedAt := some now.roundMicros,
                  UpdatedAt := some now.roundMicros, CreatedAt := some now.roundMicros,
                  JumbledAt := some now.roundMicros } := by
    simp [Scan, allFields, assign, scanInt, scanStr, scanOptTime, scanOptInt, Model.zero,
      createModel, h7, h10, f0, f7, f10, Except.map]
  simp only [pgQuery, selectJsonbColumnsSql, DB.table, selectRows, hrow, runTest, runTestLoop,
    hscan, List.nil_append]
  rfl

/-- C9 (as amended): for the record generated for an index `i` with `i + 10` in
the range of `integer` (so for `i = 42`), inserting it into an empty table `perf`
through the insert of the seeder (the document together with the typed columns)
and then selecting it through the hybrid extraction read path (the query and the
destinations of `BenchmarkSelectAndParseJsonbColumns`) decodes exactly one
record, whose `Num` is `i + 7` and whose `ID`, `Name`, `SecretCode` and `Entries`
are those of the generated record. -/
theorem seed_insert_then_hybrid_read (bits : Nat) (hb : 32 ≤ bits) (now : Time) (i : Nat)
    (hi : i ≤ 2147483637) (perf2 : Option (List Row)) (p : Proc) :
    ∃ db1 rows m q,
      pgExec ⟨some [], perf2⟩ (seedStmt (createModel bits now i)) = .ok db1 ∧
      pgQuery db1 selectJsonbColumnsSql = .ok rows ∧
      runTest bits p rows allFields = .ok ([m], q) ∧
      m.Num = some ((i : Int) + 7) ∧ m.ID = i ∧
      m.Name = (createModel bits now i).Name ∧
      m.SecretCode = (createModel bits now i).SecretCode ∧
      m.Entries = (i : Int) + 10 := by
  have h7 : wrapInt bits ((i : Int) + 7) = i + 7 :=
    wrapInt_small bits hb _ (by omega) (by omega)
  have h10 : wrapInt bits ((i : Int) + 10) = i + 10 :=
    wrapInt_small bits hb _ (by omega) (by omega)
  obtain ⟨rows, hq, hr⟩ := hybrid_read_of_seedRow bits hb now i hi perf2 p
  refine ⟨_, rows, _, _,
    pgExec_seed_createModel bits hb now i hi ⟨some [], perf2⟩ [] rfl, ?_, hr, ?_, ?_, ?_, ?_, ?_⟩
  · simpa using hq
  · simp [createModel, h7]
  · simp [createModel]
  · simp [createModel]
  · simp [createModel]
  · simp [createModel, h10]

/-- Witness for C9 on a 64-bit platform at index 42. -/
theorem seed_insert_then_hybrid_read_witness :
    ∃ db1 rows m q,
      pgExec ⟨some [], none⟩ (seedStmt (createModel 64 ⟨0⟩ (42 : Nat))) = .ok db1 ∧
      pgQuery db1 selectJsonbColumnsSql = .ok rows ∧
      runTest 64 (freshProc ⟨some [], none⟩ none (fun _ => false) (fun _ => ⟨0⟩)) rows allFields
        = .ok ([m], q) ∧
      m.Num = some (((42 : Nat) : Int) + 7) ∧ m.ID = (42 : Nat) ∧
      m.Name = (createModel 64 ⟨0⟩ (42 : Nat)).Name ∧
      m.SecretCode = (createModel 64 ⟨0⟩ (42 : Nat)).SecretCode ∧
      m.Entries = ((42 : Nat) : Int) + 10 :=
  seed_insert_then_hybrid_read 64 (by decide) ⟨0⟩ 42 (by decide) none
    (freshProc ⟨some [], none⟩ none (fun _ => false) (fun _ => ⟨0⟩))

/-- C9 (counterexample): for `i = 42` on a 64-bit platform, with both tables
existing and empty, the typed insert of `BenchmarkInsertNormalColumns` stores its
row in `perf2` with a NULL document; the hybrid extraction query reads `perf`,
which is still empty, so no record is decoded; and on a table that holds that
row the extraction gives NULL in every column and the scan into `&m.ID` is
fatal. No record with `Num = 49` is decoded. -/
theorem typed_insert_then_hybrid_read_counterexample :
    pgExec ⟨some [], some []⟩ (insertNormalStmt (createModel 64 ⟨0⟩ 42))
      = .ok ⟨some [], some [{ seedRow (createModel 64 ⟨0⟩ 42) with j := none }]⟩ ∧
    pgQuery ⟨some [], some [{ seedRow (createModel 64 ⟨0⟩ 42) with j := none }]⟩
        selectJsonbColumnsSql = .ok ⟨[], none⟩ ∧
    (runTest 64 (freshProc ⟨some [], none⟩ none (fun _ => false) (fun _ => ⟨0⟩)) ⟨[], none⟩
        allFields).toOption.map (fun r => r.1) = some [] ∧
    pgQuery ⟨some [{ seedRow (createModel 64 ⟨0⟩ 42) with j := none }], none⟩
        selectJsonbColumnsSql = .ok ⟨[List.replicate 12 .null], none⟩ ∧
    haltCode (runTest 64 (freshProc ⟨some [], none⟩ none (fun _ => false) (fun _ => ⟨0⟩))
        ⟨[List.replicate 12 .null], none⟩ allFields) = some 1 ∧
    haltStderr (runTest 64 (freshProc ⟨some [], none⟩ none (fun _ => false) (fun _ => ⟨0⟩))
        ⟨[List.replicate 12 .null], none⟩ allFields) = some ["cannot assign NULL to *int"] := by
  refine ⟨rfl, rfl, rfl, rfl, rfl, rfl⟩

end JsonbPerf
